import Mathlib

/-!
# UDPClientGFX: the frame orchestrator and the player movement system

A shallow embedding of `engine/engine.cpp` and `gameplay/playermovementsystem.cpp`
and the properties of the per-frame contract proved about it.

## Conventions of the embedding

* `float` and `double` are the finite IEEE-754 binary32 and binary64 numbers: a
  value is a rational that is a fixed point of round-to-nearest, ties-to-even,
  with a 24-bit (53-bit) significand and least exponent -149 (-1074). Every
  arithmetic operation computes exactly and rounds once. Infinities, NaN and
  the sign of zero are not represented, and the exponent has no upper bound, so
  an operation that would overflow is outside the model.
* An `Entity*` is an index `Fin n` into the world of `n` live entities, so a
  pointer is never null or dangling. `GetComponent<T>()` is the `Option` field
  of the entity; dereferencing the null result is undefined behaviour and makes
  the enclosing function return `none`.
* Calls to OpenGL, to the network collaborator and to `System::Execute` are
  recorded in the order they are issued.
* GLM is the library the sources include: `glm::translate`, `glm::scale`,
  `glm::mat4_cast` and the product of `glm::mat4` are written out as GLM 0.9.9
  defines them, column by column.
-/

namespace gdp

/-! ## Binary floating point -/

/-- Nearest integer to `q`, the even one when `q` lies half way between two. -/
def roundEven (q : ℚ) : ℤ :=
  if q - ⌊q⌋ < 1 / 2 then ⌊q⌋
  else if 1 / 2 < q - ⌊q⌋ then ⌊q⌋ + 1
  else if ⌊q⌋ % 2 = 0 then ⌊q⌋ else ⌊q⌋ + 1

/-- How often `n` can be halved before it drops below 2, at most `fuel` times. -/
def halvings : ℕ → ℕ → ℕ
  | 0, _ => 0
  | fuel + 1, n => if n < 2 then 0 else halvings fuel (n / 2) + 1

/-- Floor of the binary logarithm of `n`, for `n > 0`. -/
def natLog2 (n : ℕ) : ℕ := halvings n n

/-- Floor of the binary logarithm of `|q|`, and 0 for `q = 0`: the difference of the
logarithms of numerator and denominator, less one when the quotient is below that
power of two. -/
def floorLog2 (q : ℚ) : ℤ :=
  if q.num = 0 then 0
  else if q.den * 2 ^ natLog2 q.num.natAbs ≤ q.num.natAbs * 2 ^ natLog2 q.den then
    (natLog2 q.num.natAbs : ℤ) - natLog2 q.den
  else (natLog2 q.num.natAbs : ℤ) - natLog2 q.den - 1

/-- Exponent of the unit in the last place of `q` for a `p`-bit significand and
least exponent `emin` (subnormal numbers share the exponent `emin`). -/
def ulpExp (p : ℕ) (emin : ℤ) (q : ℚ) : ℤ := max (floorLog2 q + 1 - p) emin

/-- Round `q` to the nearest number with a `p`-bit significand, ties to even. -/
def roundTo (p : ℕ) (emin : ℤ) (q : ℚ) : ℚ :=
  roundEven (q / 2 ^ ulpExp p emin q) * 2 ^ ulpExp p emin q

/-- A finite binary floating-point number: a rational that is the result of rounding. -/
structure Flt (p : ℕ) (emin : ℤ) where
  val : ℚ
  isRounded : ∃ r : ℚ, roundTo p emin r = val

/-- The C++ type `float` (IEEE-754 binary32). -/
abbrev F32 := Flt 24 (-149)

/-- The C++ type `double` (IEEE-754 binary64). -/
abbrev F64 := Flt 53 (-1074)

namespace Flt

variable {p : ℕ} {emin : ℤ}

/-- The number nearest to the rational `q`: how a literal or an exact result is stored. -/
def ofRat (q : ℚ) : Flt p emin := ⟨roundTo p emin q, q, rfl⟩

instance : DecidableEq (Flt p emin) := fun a b =>
  if h : a.val = b.val then isTrue (by cases a; cases b; simp_all)
  else isFalse (fun e => h (by rw [e]))

instance : Add (Flt p emin) := ⟨fun a b => ofRat (a.val + b.val)⟩
instance : Sub (Flt p emin) := ⟨fun a b => ofRat (a.val - b.val)⟩
instance : Mul (Flt p emin) := ⟨fun a b => ofRat (a.val * b.val)⟩
instance : Div (Flt p emin) := ⟨fun a b => ofRat (a.val / b.val)⟩
instance : Neg (Flt p emin) := ⟨fun a => ofRat (-a.val)⟩
instance : LT (Flt p emin) := ⟨fun a b => a.val < b.val⟩
instance : LE (Flt p emin) := ⟨fun a b => a.val ≤ b.val⟩
instance (a b : Flt p emin) : Decidable (a < b) := inferInstanceAs (Decidable (a.val < b.val))
instance (a b : Flt p emin) : Decidable (a ≤ b) := inferInstanceAs (Decidable (a.val ≤ b.val))
instance (n : ℕ) : OfNat (Flt p emin) n := ⟨ofRat n⟩
instance : OfScientific (Flt p emin) := ⟨fun m s e => ofRat (Rat.ofScientific m s e)⟩
instance : Inhabited (Flt p emin) := ⟨0⟩

end Flt

/-- Conversion `float` to `double` (the usual arithmetic conversion in a comparison). -/
def F32.toF64 (x : F32) : F64 := Flt.ofRat x.val

/-- Conversion `double` to `float` (an assignment of a `double` to a `float` field). -/
def F64.toF32 (x : F64) : F32 := Flt.ofRat x.val

/-- Conversion `int` to `float` (`static_cast<float>`). -/
def F32.ofInt (i : ℤ) : F32 := Flt.ofRat i

/-! ## The parts of GLM the two files use -/

/-- The type `glm::vec3`. -/
structure Vec3 where
  x : F32
  y : F32
  z : F32
  deriving DecidableEq

/-- The type `glm::vec4`. -/
structure Vec4 where
  x : F32
  y : F32
  z : F32
  w : F32
  deriving DecidableEq

/-- The type `glm::quat`; its constructor takes `w` first, `glm::quat(w, x, y, z)`. -/
structure Quat where
  x : F32
  y : F32
  z : F32
  w : F32
  deriving DecidableEq

/-- The type `glm::mat4`, stored as four columns. -/
structure Mat4 where
  c0 : Vec4
  c1 : Vec4
  c2 : Vec4
  c3 : Vec4
  deriving DecidableEq

/-- The constructor `glm::vec3(s)` with one scalar. -/
def Vec3.splat (s : F32) : Vec3 := ⟨s, s, s⟩

/-- The sum of two `glm::vec3`, component by component. -/
def Vec3.add (a b : Vec3) : Vec3 := ⟨a.x + b.x, a.y + b.y, a.z + b.z⟩

/-- The product of a `glm::vec3` and a scalar, component by component. -/
def Vec3.smul (a : Vec3) (s : F32) : Vec3 := ⟨a.x * s, a.y * s, a.z * s⟩

/-- The sum of two `glm::vec4`, component by component. -/
def Vec4.add (a b : Vec4) : Vec4 := ⟨a.x + b.x, a.y + b.y, a.z + b.z, a.w + b.w⟩

/-- The product of a `glm::vec4` and a scalar, component by component. -/
def Vec4.smul (a : Vec4) (s : F32) : Vec4 := ⟨a.x * s, a.y * s, a.z * s, a.w * s⟩

instance : Add Vec3 := ⟨Vec3.add⟩
instance : HMul Vec3 F32 Vec3 := ⟨Vec3.smul⟩
instance : Add Vec4 := ⟨Vec4.add⟩
instance : HMul Vec4 F32 Vec4 := ⟨Vec4.smul⟩

/-- The constructor `glm::mat4(s)`: `s` on the diagonal. -/
def Mat4.diag (s : F32) : Mat4 :=
  ⟨⟨s, 0, 0, 0⟩, ⟨0, s, 0, 0⟩, ⟨0, 0, s, 0⟩, ⟨0, 0, 0, s⟩⟩

/-- The product `m1 * m2` of `glm::mat4`: column `j` of the result is
`m1[0] * m2[j][0] + m1[1] * m2[j][1] + m1[2] * m2[j][2] + m1[3] * m2[j][3]`. -/
def Mat4.mul (m1 m2 : Mat4) : Mat4 :=
  ⟨m1.c0 * m2.c0.x + m1.c1 * m2.c0.y + m1.c2 * m2.c0.z + m1.c3 * m2.c0.w,
   m1.c0 * m2.c1.x + m1.c1 * m2.c1.y + m1.c2 * m2.c1.z + m1.c3 * m2.c1.w,
   m1.c0 * m2.c2.x + m1.c1 * m2.c2.y + m1.c2 * m2.c2.z + m1.c3 * m2.c2.w,
   m1.c0 * m2.c3.x + m1.c1 * m2.c3.y + m1.c2 * m2.c3.z + m1.c3 * m2.c3.w⟩

instance : Mul Mat4 := ⟨Mat4.mul⟩

namespace glm

/-- The function `glm::translate(m, v)`: the last column becomes
`m[0] * v[0] + m[1] * v[1] + m[2] * v[2] + m[3]`, the others are kept. -/
def translate (m : Mat4) (v : Vec3) : Mat4 :=
  { m with c3 := m.c0 * v.x + m.c1 * v.y + m.c2 * v.z + m.c3 }

/-- The function `glm::scale(m, v)`: column `i < 3` is multiplied by `v[i]`. -/
def scale (m : Mat4) (v : Vec3) : Mat4 :=
  ⟨m.c0 * v.x, m.c1 * v.y, m.c2 * v.z, m.c3⟩

/-- The function `glm::mat4_cast(q)`: the 3x3 matrix of `glm::mat3_cast` padded
with the last row and column of the identity. -/
def mat4_cast (q : Quat) : Mat4 :=
  let qxx := q.x * q.x
  let qyy := q.y * q.y
  let qzz := q.z * q.z
  let qxz := q.x * q.z
  let qxy := q.x * q.y
  let qyz := q.y * q.z
  let qwx := q.w * q.x
  let qwy := q.w * q.y
  let qwz := q.w * q.z
  ⟨⟨1 - 2 * (qyy + qzz), 2 * (qxy + qwz), 2 * (qxz - qwy), 0⟩,
   ⟨2 * (qxy - qwz), 1 - 2 * (qxx + qzz), 2 * (qyz + qwx), 0⟩,
   ⟨2 * (qxz + qwy), 2 * (qyz - qwx), 1 - 2 * (qxx + qyy), 0⟩,
   ⟨0, 0, 0, 1⟩⟩

end glm

/-! ## Components and entities -/

/-- Modelled from the spec: `graphics/transformcomponent.h` is not among the sources.
Position and scale are 3D vectors and the orientation is a rotation value. -/
structure TransformComponent where
  position : Vec3
  scale : Vec3
  orientation : Quat
  deriving DecidableEq

/-- Modelled from the spec: `graphics/meshrenderercomponent.h` is not among the sources.
A GPU buffer handle, a triangle count and a flat colour. The integer types are not
known; the count is a natural number and the product `numTriangles * 3` is reduced to 32
bits where it is passed to OpenGL. -/
structure MeshRendererComponent where
  vbo : ℕ
  numTriangles : ℕ
  color : Vec3
  deriving DecidableEq

/-- Modelled from the spec: `gameplay/playercontrollercomponent.h` is not among the
sources. Five boolean intents, all clear when the component is created. -/
structure PlayerControllerComponent where
  moveForward : Bool := false
  moveBackward : Bool := false
  moveLeft : Bool := false
  moveRight : Bool := false
  hasShot : Bool := false
  deriving DecidableEq

/-- Modelled from the spec: `network/netcomponent.h` is not among the sources.
A marker that carries the ownership flag. -/
structure NetComponent where
  isOwner : Bool
  deriving DecidableEq

/-- Modelled from the spec: the entity class of `system/entitymanager.h` is not among
the sources. At most one component of each type, `none` when it is not attached; the
flags `isBullet` and `inMotion`; `parentOf` is the index of the owner entity. -/
structure Entity where
  meshRenderer : Option MeshRendererComponent := none
  transform : Option TransformComponent := none
  playerController : Option PlayerControllerComponent := none
  net : Option NetComponent := none
  parentOf : Option ℕ := none
  isBullet : Bool := false
  inMotion : Bool := false
  deriving DecidableEq

/-- Modelled from the spec: `Entity::HasComponent<MeshRendererComponent>()` is not among
the sources. It tells whether the component is attached. -/
def Entity.hasMeshRenderer (e : Entity) : Bool := e.meshRenderer.isSome

/-- Modelled from the spec: `Entity::HasComponent<TransformComponent>()` is not among the
sources. It tells whether the component is attached. -/
def Entity.hasTransform (e : Entity) : Bool := e.transform.isSome

/-- The entities owned by the entity manager, addressed by pointer. -/
abbrev World (n : ℕ) := Fin n → Entity

/-- Modelled from the spec: `EntityManager::GetEntities` is not among the sources.
It enumerates all live entities, each once, as the snapshot of the frame. -/
def GetEntities (n : ℕ) : List (Fin n) := List.finRange n

/-! ## `gameplay/playermovementsystem.cpp` -/

namespace PlayerMovementSystem

/-- Lines 24 to 38 of `Execute`: the body of the `if`, for the controller and the
transform of one entity. -/
def move (controller : PlayerControllerComponent) (transform : TransformComponent)
    (dt : F32) : TransformComponent :=
  let speed : F32 := 7
  let direction : Vec3 := Vec3.splat 0
  let direction := { direction with x := direction.x + (if controller.moveForward then 1 else 0) }
  let direction := { direction with x := direction.x + (if controller.moveBackward then -1 else 0) }
  let position := transform.position + direction * speed * dt
  let y := transform.orientation.y + (if controller.moveLeft then -0.01 else 0)
  let y := y + (if controller.moveRight then 0.01 else 0)
  let y := if (0.6 : F64) < y.toF64 then F64.toF32 0.6 else y
  let y := if y.toF64 < -(0.6 : F64) then F64.toF32 (-0.6) else y
  { transform with position := position, orientation := { transform.orientation with y := y } }

/-- Lines 17 to 40 of `Execute`: one iteration of the loop, on one entity. -/
def step (dt : F32) (entity : Entity) : Entity :=
  match entity.playerController, entity.transform with
  | some controller, some transform => { entity with transform := some (move controller transform dt) }
  | _, _ => entity

/-- The function `PlayerMovementSystem::Execute(entities, dt)`: the loop over the
vector of entity pointers, each iteration writing through its pointer. -/
def Execute {n : ℕ} (entities : List (Fin n)) (dt : F32) (world : World n) : World n :=
  entities.foldl (fun w i => Function.update w i (step dt (w i))) world

end PlayerMovementSystem

/-! ## `engine/engine.cpp` -/

/-- An OpenGL or GLUT call of `Resize` and of `Render`, with the arguments that vary
(`glClear` always clears the colour buffer; `glDrawElements` always draws `GL_TRIANGLES`
with `GL_UNSIGNED_INT` indices from offset 0, and its count is a `GLsizei`, a signed
32-bit integer). `CheckGLError` only prints and is not recorded. -/
inductive GLCall where
  | glViewport (x y width height : ℤ)
  | glClear
  | glUniformMatrix4fv (location : ℤ) (value : Mat4)
  | glUniform3fv (location : ℤ) (value : Vec3)
  | glBindVertexArray (array : ℕ)
  | glDrawElements (count : ℤ)
  | glutSwapBuffers
  deriving DecidableEq

/-- The value a count takes as the `GLsizei` argument of `glDrawElements`: reduced
modulo 2^32 into the range of a signed 32-bit integer. -/
def toGLsizei (k : ℕ) : ℤ := ((k : ℤ) + 2 ^ 31) % 2 ^ 32 - 2 ^ 31

/-- Modelled from the spec: the class `System` is not among the sources. It has one
operation, `Execute(entities, dt)`, which may change the components of the entities. -/
structure System (n : ℕ) where
  Execute : List (Fin n) → F32 → World n → World n

/-- One call `m_Systems[i]->Execute(entities, dt)` with its arguments. -/
structure ExecuteCall (n : ℕ) where
  system : System n
  entities : List (Fin n)
  dt : F32

/-- Modelled from the spec: the element type of `m_NetworkedPositions` is not among
the sources. The latest state received for one roster slot, with the field names
`Update` reads. -/
structure NetworkedPosition where
  x : F32
  z : F32
  l : F32
  r : F32
  deriving DecidableEq

/-- The arguments of one call of `SendPlayerPositionToServer`. -/
structure SentState where
  x : F32
  z : F32
  l : F32
  r : F32
  hasShot : Bool
  deriving DecidableEq

/-- Modelled from the spec: the class `NetworkManager` is not among the sources. It
exposes an array of four remote snapshots indexed by roster slot; `sent` lists what
was handed to it for transmission. -/
structure NetworkManager where
  m_NetworkedPositions : Fin 4 → NetworkedPosition
  sent : List SentState

/-- Modelled from the spec: `NetworkManager::SendPlayerPositionToServer` is not among
the sources. It takes the local state for transmission. -/
def NetworkManager.SendPlayerPositionToServer (nm : NetworkManager)
    (x z l r : F32) (hasShot : Bool) : NetworkManager :=
  { nm with sent := nm.sent ++ [⟨x, z, l, r, hasShot⟩] }

/-- The members of `Engine` that `Resize`, `Update`, `AddSystem` and `Render` use, with
the entity manager's entities (`world`) and the calls issued so far by `Resize` and
`Update` (`glCalls`, `executed`). -/
structure Engine (n : ℕ) where
  world : World n
  m_Player : Fin n
  m_CameraEntity : Fin n
  m_NetworkedEntities : List (Fin n)
  m_Systems : List (System n)
  m_Keys : Char → Bool
  m_WindowWidth : ℤ
  m_WindowHeight : ℤ
  m_WindowRatio : F32
  m_ProjectionMatrixUL : ℤ
  m_ViewMatrixUL : ℤ
  m_ModelMatrixUL : ℤ
  m_ColorUL : ℤ
  m_NetworkManager : NetworkManager
  glCalls : List GLCall
  executed : List (ExecuteCall n)

namespace Engine

variable {n : ℕ}

/-- The function `Engine::Resize(w, h)`. -/
def Resize (e : Engine n) (w h : ℤ) : Engine n :=
  if w ≤ 0 ∨ h ≤ 0 then e
  else
    { e with
      m_WindowWidth := w
      m_WindowHeight := h
      m_WindowRatio := F32.ofInt w / F32.ofInt h
      glCalls := e.glCalls ++ [GLCall.glViewport 0 0 w h] }

/-- The function `Engine::AddSystem(system)`: `m_Systems.push_back(system)`. -/
def AddSystem (e : Engine n) (system : System n) : Engine n :=
  { e with m_Systems := e.m_Systems ++ [system] }

/-- Lines 95 to 100 of `Update`: the controller of the player is looked up and the
five intents are written through the pointer, with no test of the pointer. -/
def captureInput (e : Engine n) : Option (Engine n) :=
  match (e.world e.m_Player).playerController with
  | none => none
  | some controller =>
    let controller := { controller with moveBackward := e.m_Keys 's' }
    let controller := { controller with moveForward := e.m_Keys 'w' }
    let controller := { controller with moveLeft := e.m_Keys 'a' }
    let controller := { controller with moveRight := e.m_Keys 'd' }
    let controller := { controller with hasShot := e.m_Keys 'q' }
    some { e with
      world := Function.update e.world e.m_Player
        { e.world e.m_Player with playerController := some controller } }

/-- Lines 102 to 108 of `Update`: the snapshot is taken once and every element of
`m_Systems` is executed on it, from index 0 upwards. -/
def executeSystems (e : Engine n) (dt : F32) : Engine n :=
  let entities := GetEntities n
  e.m_Systems.foldl
    (fun e system =>
      { e with
        world := system.Execute entities dt e.world
        executed := e.executed ++ [⟨system, entities, dt⟩] })
    e

/-- Lines 110 to 113 of `Update`: the transform of the player is looked up and read
through the pointer, with no test of the pointer, together with `hasShot` of the
controller; `poll` is what `m_NetworkManager.Update()` does to the network manager. -/
def publish (e : Engine n) (poll : NetworkManager → NetworkManager) : Option (Engine n) :=
  match (e.world e.m_Player).transform, (e.world e.m_Player).playerController with
  | some transform, some controller =>
    some { e with
      m_NetworkManager := poll (e.m_NetworkManager.SendPlayerPositionToServer
        transform.position.x transform.position.z
        transform.orientation.x transform.orientation.z controller.hasShot) }
  | _, _ => none

/-- Lines 118 to 121 of `Update`: the four assignments to a transform. -/
def overwrite (s : NetworkedPosition) (transform : TransformComponent) : TransformComponent :=
  let transform := { transform with position := { transform.position with x := s.x } }
  let transform := { transform with position := { transform.position with z := s.z } }
  let transform := { transform with orientation := { transform.orientation with x := s.l } }
  let transform := { transform with orientation := { transform.orientation with z := s.r } }
  transform

/-- Lines 117 to 121 of `Update`: one iteration of the loop over the roster. The
element `m_NetworkedEntities[i]` must exist and its transform is written through the
pointer that `GetComponent` returns, with no test of the pointer. -/
def applySlot (roster : List (Fin n)) (positions : Fin 4 → NetworkedPosition)
    (world : World n) (i : Fin 4) : Option (World n) :=
  match roster.get? i with
  | none => none
  | some entity =>
    match (world entity).transform with
    | none => none
    | some transform =>
      some (Function.update world entity
        { world entity with transform := some (overwrite (positions i) transform) })

/-- Lines 115 to 123 of `Update`: the loop `for (int i = 0; i < 4; i++)`. -/
def applyRemoteState (roster : List (Fin n)) (positions : Fin 4 → NetworkedPosition)
    (world : World n) : Option (World n) :=
  (List.finRange 4).foldlM (applySlot roster positions) world

/-- The function `Engine::Update()`. The time step `dt` of lines 88 to 90 is an input,
and so is `poll`, the effect of `m_NetworkManager.Update()`. The result is `none`
when a null component pointer is dereferenced. -/
def Update (e : Engine n) (dt : F32) (poll : NetworkManager → NetworkManager) :
    Option (Engine n) := do
  let e ← e.captureInput
  let e := e.executeSystems dt
  let e ← e.publish poll
  let world ← applyRemoteState e.m_NetworkedEntities e.m_NetworkManager.m_NetworkedPositions e.world
  pure { e with world := world }

/-- Lines 168 to 171 of `Render`: the model matrix of a transform. -/
def modelMatrix (transform : TransformComponent) : Mat4 :=
  let translationMatrix := glm.translate (Mat4.diag 1) transform.position
  let scaleMatrix := glm.scale (Mat4.diag 1) transform.scale
  let rotationMatrix := glm.mat4_cast transform.orientation
  translationMatrix * scaleMatrix * rotationMatrix

/-- Lines 158 to 184 of `Render`: one iteration of the loop over the entities. The
components are fetched only when `HasComponent` holds for both. -/
def renderEntity (e : Engine n) (entity : Entity) : List GLCall :=
  if entity.hasMeshRenderer && entity.hasTransform then
    match entity.meshRenderer, entity.transform with
    | some renderer, some transform =>
      [GLCall.glUniformMatrix4fv e.m_ModelMatrixUL (modelMatrix transform),
       GLCall.glUniform3fv e.m_ColorUL renderer.color,
       GLCall.glBindVertexArray renderer.vbo,
       GLCall.glDrawElements (toGLsizei (renderer.numTriangles * 3))]
    | _, _ => []
  else []

/-- Lines 153 to 185 of `Render`: the OpenGL calls of the loop over the snapshot. -/
def renderEntities (e : Engine n) : List GLCall :=
  (GetEntities n).flatMap (fun i => e.renderEntity (e.world i))

/-- The function `Engine::Render()`. The projection matrix of lines 133 to 138 is
`projection m_WindowWidth m_WindowHeight` and the view matrix of lines 147 and 148 is
`view cameraPosition`: `glm::perspective` and `glm::lookAt` need `tan`, a square root
and a division by the height, so the two matrices are inputs, as functions of what the
code computes them from. The transform of the camera is looked up at line 143 and read
through the pointer at line 144, with no test of the pointer: the result is `none` when
the camera entity has no transform. The vector `cameraForward` of line 145 is computed
from the orientation of the camera and never used; it is left out. -/
def Render (e : Engine n) (projection : ℤ → ℤ → Mat4) (view : Vec3 → Mat4) :
    Option (List GLCall) :=
  match (e.world e.m_CameraEntity).transform with
  | none => none
  | some cameraTransform =>
    let cameraPosition := cameraTransform.position
    some ([GLCall.glClear,
        GLCall.glUniformMatrix4fv e.m_ProjectionMatrixUL
          (projection e.m_WindowWidth e.m_WindowHeight),
        GLCall.glUniformMatrix4fv e.m_ViewMatrixUL (view cameraPosition)]
      ++ e.renderEntities ++ [GLCall.glutSwapBuffers])

end Engine

/-- The system `PlayerMovementSystem` as an element of `m_Systems`. -/
def playerMovementSystem (n : ℕ) : System n := ⟨PlayerMovementSystem.Execute⟩

/-- A system that clears the intent `moveForward` of every controller, as a second
element of `m_Systems` in the examples. -/
def haltSystem (n : ℕ) : System n :=
  ⟨fun _ _ world i =>
    { world i with
      playerController := (world i).playerController.map
        (fun c => { c with moveForward := false }) }⟩

/-- The components that `Update` reaches through unchecked pointers after the systems
have run: the transform and the controller of the player, and a transform in the
entity of each of the four roster slots. -/
def Engine.componentsPresent {n : ℕ} (e : Engine n) : Prop :=
  (e.world e.m_Player).transform.isSome = true ∧
    (e.world e.m_Player).playerController.isSome = true ∧
    ∀ slot : Fin 4, ∃ entity, e.m_NetworkedEntities.get? slot = some entity ∧
      (e.world entity).transform.isSome = true

/-! ## Auxiliary functions of the proofs -/

/-- The four assignments of lines 118 to 121 on the transform of an entity, if it has one. -/
def overwriteEntity (s : NetworkedPosition) (entity : Entity) : Entity :=
  { entity with transform := entity.transform.map (Engine.overwrite s) }

/-- What the iterations `slots` of the loop over the roster do to the entity at `i`:
each iteration whose roster element is `i` overwrites it, in order. -/
def overwrittenBy {n : ℕ} (roster : List (Fin n)) (positions : Fin 4 → NetworkedPosition)
    (slots : List (Fin 4)) (i : Fin n) (entity : Entity) : Entity :=
  slots.foldl
    (fun (x : Entity) (slot : Fin 4) =>
      if roster.get? slot = some i then overwriteEntity (positions slot) x else x)
    entity

/-! ## Sample worlds -/

/-- A world of two entities: a player at the origin that moves forward, and an entity
with no component. -/
def forwardWorld : World 2 := fun i =>
  if i = 0 then
    { playerController := some { moveForward := true }
      transform := some ⟨⟨0, 0, 0⟩, ⟨1, 1, 1⟩, ⟨0, 0, 0, 1⟩⟩ }
  else {}

/-- A world of one entity with yaw 0.59 whose controller turns right. -/
def yawWorld : World 1 := fun _ =>
  { playerController := some { moveRight := true }
    transform := some ⟨⟨0, 0, 0⟩, ⟨1, 1, 1⟩, ⟨0, 0.59, 0, 1⟩⟩ }

/-- A world of one entity with yaw 0.05 whose controller turns left and right at once. -/
def strafeBothWorld : World 1 := fun _ =>
  { playerController := some { moveLeft := true, moveRight := true }
    transform := some ⟨⟨0, 0, 0⟩, ⟨1, 1, 1⟩, ⟨0, 0.05, 0, 1⟩⟩ }

/-- A player entity as `LoadAssets` builds it: a mesh, a transform, a controller with
no intent set, and a net component. -/
def samplePlayer : Entity :=
  { meshRenderer := some ⟨2, 12, ⟨1, 0, 0⟩⟩
    transform := some ⟨⟨10, 0, 0⟩, ⟨1, 1, 1⟩, ⟨0, 0, 0, 1⟩⟩
    playerController := some {}
    net := some ⟨true⟩ }

/-- A bullet entity as `LoadAssets` builds it: a mesh and a transform, owned by entity 0. -/
def sampleBullet : Entity :=
  { meshRenderer := some ⟨4, 760, ⟨0.3, 0.3, 0.3⟩⟩
    transform := some ⟨⟨-30, 50, 0⟩, ⟨1, 1, 1⟩, ⟨0, 0, 0, 1⟩⟩
    parentOf := some 0 }

/-- A camera entity as `LoadAssets` builds it: a transform and no mesh. -/
def sampleCamera : Entity :=
  { transform := some ⟨⟨-20, 50, 0⟩, ⟨1, 1, 1⟩, ⟨0, 0, 0, 1⟩⟩ }

/-- A world shaped like the one of `LoadAssets`: the player, four bullets, the camera. -/
def sampleWorld : World 6 := fun i =>
  if i = 0 then samplePlayer else if i = 5 then sampleCamera else sampleBullet

/-- The snapshots of the four roster slots used in the examples. -/
def samplePositions : Fin 4 → NetworkedPosition := fun i =>
  if i = 0 then ⟨1, 2, 0, 1⟩ else if i = 1 then ⟨3, 4, 0, 1⟩
  else if i = 2 then ⟨5, 6, 1, 0⟩ else ⟨7, 8, 1, 0⟩

/-- An engine on the sample world with the four bullets as roster, the key `w` held
down, a window of 800 by 600 and no system registered. -/
def sampleEngine : Engine 6 :=
  { world := sampleWorld
    m_Player := 0
    m_CameraEntity := 5
    m_NetworkedEntities := [1, 2, 3, 4]
    m_Systems := []
    m_Keys := fun key => key = 'w'
    m_WindowWidth := 800
    m_WindowHeight := 600
    m_WindowRatio := F32.ofInt 800 / F32.ofInt 600
    m_ProjectionMatrixUL := 0
    m_ViewMatrixUL := 1
    m_ModelMatrixUL := 2
    m_ColorUL := 3
    m_NetworkManager := ⟨samplePositions, []⟩
    glCalls := []
    executed := [] }

/-- The sample engine with an entity manager whose only entity has no component: the
player has neither a controller nor a transform. -/
def bareEngine : Engine 1 :=
  { world := fun _ => {}
    m_Player := 0
    m_CameraEntity := 0
    m_NetworkedEntities := [0, 0, 0, 0]
    m_Systems := []
    m_Keys := fun _ => false
    m_WindowWidth := 800
    m_WindowHeight := 600
    m_WindowRatio := F32.ofInt 800 / F32.ofInt 600
    m_ProjectionMatrixUL := 0
    m_ViewMatrixUL := 1
    m_ModelMatrixUL := 2
    m_ColorUL := 3
    m_NetworkManager := ⟨samplePositions, []⟩
    glCalls := []
    executed := [] }

/-- A stand-in for the projection matrix in the examples: the identity. -/
def sampleProjection : ℤ → ℤ → Mat4 := fun _ _ => Mat4.diag 1

/-- A stand-in for the view matrix in the examples: the translation by the camera
position, which like `glm::lookAt` is a different matrix for different positions. -/
def sampleView : Vec3 → Mat4 := fun cameraPosition => glm.translate (Mat4.diag 1) cameraPosition

/-- The sample engine with the transform of the camera entity removed. -/
def blindEngine : Engine 6 :=
  { sampleEngine with world := Function.update sampleWorld 5 {} }

/-- The sample engine with the camera entity, which has no mesh, moved up by 10. -/
def movedCameraEngine : Engine 6 :=
  { sampleEngine with
    world := Function.update sampleWorld 5
      { transform := some ⟨⟨-20, 60, 0⟩, ⟨1, 1, 1⟩, ⟨0, 0, 0, 1⟩⟩ } }

/-- An entity with a mesh of 715827883 triangles, the least count whose triple does not
fit a signed 32-bit integer. -/
def hugeMeshEntity : Entity :=
  { meshRenderer := some ⟨4, 715827883, ⟨1, 1, 1⟩⟩
    transform := some ⟨⟨0, 0, 0⟩, ⟨1, 1, 1⟩, ⟨0, 0, 0, 1⟩⟩ }

/-! ## Rounding: the values of a format are the fixed points -/

theorem halvings_bounds (fuel n : ℕ) (hf : n ≤ fuel) (hn : n ≠ 0) :
    2 ^ halvings fuel n ≤ n ∧ n < 2 ^ (halvings fuel n + 1) := by
  induction fuel generalizing n with
  | zero => omega
  | succ f ih =>
    unfold halvings
    by_cases h2 : n < 2
    · rw [if_pos h2]
      constructor <;> simp <;> omega
    · rw [if_neg h2]
      obtain ⟨h1, h3⟩ := ih (n / 2) (by omega) (by omega)
      constructor
      · rw [pow_succ]; omega
      · rw [pow_succ]; omega

theorem natLog2_le (n : ℕ) (hn : n ≠ 0) : 2 ^ natLog2 n ≤ n :=
  (halvings_bounds n n le_rfl hn).1

theorem lt_natLog2 (n : ℕ) (hn : n ≠ 0) : n < 2 ^ (natLog2 n + 1) :=
  (halvings_bounds n n le_rfl hn).2

theorem log_eq_of_bounds (r : ℚ) (e : ℤ) (hr : 0 < r) (h1 : (2 : ℚ) ^ e ≤ r)
    (h2 : r < (2 : ℚ) ^ (e + 1)) : Int.log 2 r = e := by
  apply le_antisymm
  · have := (Int.lt_zpow_iff_log_lt (R := ℚ) (b := 2) (by norm_num) (x := e + 1) hr).mp
      (by exact_mod_cast h2)
    omega
  · exact (Int.zpow_le_iff_le_log (R := ℚ) (b := 2) (by norm_num) (x := e) hr).mp
      (by exact_mod_cast h1)

theorem abs_eq_natAbs_div (q : ℚ) : |q| = (q.num.natAbs : ℚ) / (q.den : ℚ) := by
  have h : |q| = |(q.num : ℚ) / (q.den : ℚ)| := by rw [Rat.num_div_den]
  rw [h, abs_div, Nat.abs_cast, Nat.cast_natAbs, Int.cast_abs]

theorem floorLog2_eq (q : ℚ) : floorLog2 q = Int.log 2 |q| := by
  unfold floorLog2
  by_cases h0 : q.num = 0
  · rw [if_pos h0, Rat.zero_of_num_zero h0, abs_zero, Int.log_zero_right]
  rw [if_neg h0]
  have hn : q.num.natAbs ≠ 0 := Int.natAbs_ne_zero.mpr h0
  have hd : q.den ≠ 0 := q.den_nz
  have hnq : (0 : ℚ) < q.num.natAbs := by exact_mod_cast Nat.pos_of_ne_zero hn
  have hdq : (0 : ℚ) < q.den := by exact_mod_cast Nat.pos_of_ne_zero hd
  have ha1 : ((2 : ℚ) ^ natLog2 q.num.natAbs) ≤ q.num.natAbs := by
    exact_mod_cast natLog2_le _ hn
  have ha2 : (q.num.natAbs : ℚ) < (2 : ℚ) ^ (natLog2 q.num.natAbs + 1) := by
    exact_mod_cast lt_natLog2 _ hn
  have hb1 : ((2 : ℚ) ^ natLog2 q.den) ≤ q.den := by
    exact_mod_cast natLog2_le _ hd
  have hb2 : (q.den : ℚ) < (2 : ℚ) ^ (natLog2 q.den + 1) := by
    exact_mod_cast lt_natLog2 _ hd
  have hpa : (0 : ℚ) < 2 ^ natLog2 q.num.natAbs := by positivity
  have hpb : (0 : ℚ) < 2 ^ natLog2 q.den := by positivity
  have hpos : 0 < |q| := by rw [abs_eq_natAbs_div]; positivity
  symm
  rw [abs_eq_natAbs_div] at hpos ⊢
  split_ifs with hc
  · have hcq : (q.den : ℚ) * 2 ^ natLog2 q.num.natAbs ≤ q.num.natAbs * 2 ^ natLog2 q.den := by
      exact_mod_cast hc
    apply log_eq_of_bounds _ _ hpos
    · rw [zpow_sub₀ (by norm_num), zpow_natCast, zpow_natCast, div_le_div_iff₀ hpb hdq]
      linarith
    · have : ((natLog2 q.num.natAbs : ℤ) - natLog2 q.den + 1) = ((natLog2 q.num.natAbs + 1 : ℕ) : ℤ) - natLog2 q.den := by
        push_cast; ring
      rw [this, zpow_sub₀ (by norm_num), zpow_natCast, zpow_natCast, div_lt_div_iff₀ hdq hpb]
      calc (q.num.natAbs : ℚ) * 2 ^ natLog2 q.den ≤ q.num.natAbs * q.den :=
            mul_le_mul_of_nonneg_left hb1 hnq.le
        _ < 2 ^ (natLog2 q.num.natAbs + 1) * q.den := mul_lt_mul_of_pos_right ha2 hdq
  · have hcq : (q.num.natAbs : ℚ) * 2 ^ natLog2 q.den < q.den * 2 ^ natLog2 q.num.natAbs := by
      exact_mod_cast not_le.mp hc
    apply log_eq_of_bounds _ _ hpos
    · have : ((natLog2 q.num.natAbs : ℤ) - natLog2 q.den - 1) = (natLog2 q.num.natAbs : ℤ) - ((natLog2 q.den + 1 : ℕ) : ℤ) := by
        push_cast; ring
      rw [this, zpow_sub₀ (by norm_num), zpow_natCast, zpow_natCast, div_le_div_iff₀ (by positivity) hdq]
      calc (2 : ℚ) ^ natLog2 q.num.natAbs * q.den ≤ q.num.natAbs * q.den :=
            mul_le_mul_of_nonneg_right ha1 hdq.le
        _ ≤ q.num.natAbs * 2 ^ (natLog2 q.den + 1) := mul_le_mul_of_nonneg_left hb2.le hnq.le
    · have : ((natLog2 q.num.natAbs : ℤ) - natLog2 q.den - 1 + 1) = (natLog2 q.num.natAbs : ℤ) - natLog2 q.den := by
        ring
      rw [this, zpow_sub₀ (by norm_num), zpow_natCast, zpow_natCast, div_lt_div_iff₀ hdq hpb]
      linarith

theorem ulpExp_eq (p : ℕ) (emin : ℤ) (q : ℚ) :
    ulpExp p emin q = max (Int.log 2 |q| + 1 - p) emin := by
  unfold ulpExp
  rw [floorLog2_eq]

theorem roundEven_intCast (n : ℤ) : roundEven (n : ℚ) = n := by
  simp [roundEven]

theorem roundEven_mem (q : ℚ) : roundEven q = ⌊q⌋ ∨ roundEven q = ⌊q⌋ + 1 := by
  unfold roundEven
  split_ifs <;> simp

theorem abs_roundEven_le (q : ℚ) (N : ℤ) (h : |q| < N) : |roundEven q| ≤ N := by
  have h1 := abs_lt.mp h
  have hlo : -N ≤ ⌊q⌋ := by
    apply Int.le_floor.mpr
    push_cast
    exact h1.1.le
  have hhi : ⌊q⌋ < N := by
    have : ((⌊q⌋ : ℤ) : ℚ) < N := lt_of_le_of_lt (Int.floor_le q) h1.2
    exact_mod_cast this
  rw [abs_le]
  rcases roundEven_mem q with h | h <;> rw [h] <;> constructor <;> omega

theorem ulpExp_ge (p : ℕ) (emin : ℤ) (q : ℚ) : emin ≤ ulpExp p emin q := le_max_right _ _

theorem roundTo_zero (p : ℕ) (emin : ℤ) : roundTo p emin 0 = 0 := by
  simp [roundTo, roundEven]

/-- Every rounded value is an integer multiple of a power of two with a `p`-bit mantissa. -/
theorem roundTo_isRepr (p : ℕ) (emin : ℤ) (q : ℚ) :
    ∃ n k : ℤ, |n| ≤ 2 ^ p ∧ emin ≤ k ∧ roundTo p emin q = n * 2 ^ k := by
  refine ⟨roundEven (q / 2 ^ ulpExp p emin q), ulpExp p emin q, ?_, ulpExp_ge p emin q, rfl⟩
  apply abs_roundEven_le
  have h2 : (0 : ℚ) < 2 ^ ulpExp p emin q := by positivity
  rw [abs_div, abs_of_pos h2, div_lt_iff₀ h2]
  push_cast
  have hlt : |q| < (2 : ℚ) ^ (Int.log 2 |q| + 1) := by
    exact_mod_cast Int.lt_zpow_succ_log_self (R := ℚ) (b := 2) (by norm_num) |q|
  have hle : Int.log 2 |q| + 1 ≤ (p : ℤ) + ulpExp p emin q := by
    have := le_max_left (Int.log 2 |q| + 1 - (p : ℤ)) emin
    rw [ulpExp_eq]; omega
  calc |q| < (2 : ℚ) ^ (Int.log 2 |q| + 1) := hlt
    _ ≤ (2 : ℚ) ^ ((p : ℤ) + ulpExp p emin q) := zpow_le_zpow_right₀ (by norm_num) hle
    _ = 2 ^ p * 2 ^ ulpExp p emin q := by
        rw [zpow_add₀ (by norm_num), zpow_natCast]


theorem roundTo_of_int_mul (p : ℕ) (emin : ℤ) (v : ℚ) (m : ℤ)
    (h : v / 2 ^ ulpExp p emin v = m) : roundTo p emin v = v := by
  unfold roundTo
  rw [h, roundEven_intCast, ← h]
  have h2 : (2 : ℚ) ^ ulpExp p emin v ≠ 0 := by positivity
  field_simp

theorem log_abs_lt (v : ℚ) (hv : v ≠ 0) (e : ℤ) (h : |v| < 2 ^ e) : Int.log 2 |v| < e := by
  have := (Int.lt_zpow_iff_log_lt (R := ℚ) (b := 2) (by norm_num) (x := e) (abs_pos.mpr hv)).mp
  apply this
  exact_mod_cast h

/-- A value with a `p`-bit mantissa and an exponent not below `emin` is a fixed point of rounding. -/
theorem roundTo_of_isRepr (p : ℕ) (hp : 0 < p) (emin : ℤ) (n k : ℤ)
    (hn : |n| ≤ 2 ^ p) (hk : emin ≤ k) :
    roundTo p emin (n * 2 ^ k) = n * 2 ^ k := by
  by_cases h0 : n = 0
  · simp [h0, roundTo_zero]
  have h2k : (0 : ℚ) < 2 ^ k := by positivity
  have hv : (n : ℚ) * 2 ^ k ≠ 0 := mul_ne_zero (by exact_mod_cast h0) h2k.ne'
  have habs : |(n : ℚ) * 2 ^ k| = (|n| : ℤ) * 2 ^ k := by
    rw [abs_mul, abs_of_pos h2k]; push_cast; rfl
  rcases lt_or_eq_of_le hn with hlt | heq
  · -- mantissa strictly below 2^p: the unit in the last place does not grow
    have hb : |(n : ℚ) * 2 ^ k| < 2 ^ ((p : ℤ) + k) := by
      rw [habs, zpow_add₀ (by norm_num), zpow_natCast]
      apply mul_lt_mul_of_pos_right _ h2k
      exact_mod_cast hlt
    have hlog := log_abs_lt _ hv _ hb
    have hle : ulpExp p emin (n * 2 ^ k) ≤ k := by
      rw [ulpExp_eq]
      exact max_le (by omega) hk
    obtain ⟨d, hd⟩ := Int.eq_ofNat_of_zero_le (sub_nonneg.mpr hle)
    apply roundTo_of_int_mul p emin _ (n * 2 ^ d)
    have hk' : k = ulpExp p emin (n * 2 ^ k) + d := by omega
    have h2u : (2 : ℚ) ^ ulpExp p emin (n * 2 ^ k) ≠ 0 := by positivity
    rw [div_eq_iff h2u]
    push_cast
    nth_rewrite 1 [hk']
    rw [zpow_add₀ (by norm_num), zpow_natCast]
    ring
  · -- mantissa exactly 2^p: the value is the power of two 2^(p+k)
    have hb : |(n : ℚ) * 2 ^ k| = 2 ^ ((p : ℤ) + k) := by
      rw [habs, zpow_add₀ (by norm_num), zpow_natCast, heq]; push_cast; rfl
    have hlog : Int.log 2 |(n : ℚ) * 2 ^ k| = p + k := by
      rw [hb]
      exact_mod_cast Int.log_zpow (R := ℚ) (b := 2) (by norm_num) ((p : ℤ) + k)
    have hu : ulpExp p emin (n * 2 ^ k) = k + 1 := by
      rw [ulpExp_eq, hlog]
      have : (p : ℤ) + k + 1 - p = k + 1 := by ring
      rw [this]
      exact max_eq_left (by omega)
    obtain ⟨p', rfl⟩ : ∃ p', p = p' + 1 := ⟨p - 1, by omega⟩
    apply roundTo_of_int_mul (p' + 1) emin _ (n / 2)
    rw [hu]
    have h2 : (2 : ℤ) ∣ n := by
      rcases abs_choice n with h | h
      · rw [h] at heq; rw [heq]; exact ⟨2 ^ p', by ring⟩
      · rw [h] at heq
        have : n = -(2 ^ (p' + 1)) := by omega
        rw [this]; exact ⟨-(2 ^ p'), by ring⟩
    obtain ⟨c, hc⟩ := h2
    rw [hc]
    have h2k1 : (2 : ℚ) ^ (k + 1) ≠ 0 := by positivity
    rw [div_eq_iff h2k1, zpow_add₀ (by norm_num)]
    push_cast
    rw [Int.mul_ediv_cancel_left c (by norm_num)]
    ring

theorem roundTo_idem (p : ℕ) (hp : 0 < p) (emin : ℤ) (q : ℚ) :
    roundTo p emin (roundTo p emin q) = roundTo p emin q := by
  obtain ⟨n, k, hn, hk, h⟩ := roundTo_isRepr p emin q
  rw [h]
  exact roundTo_of_isRepr p hp emin n k hn hk

theorem Flt.ext {p : ℕ} {emin : ℤ} {a b : Flt p emin} (h : a.val = b.val) : a = b := by
  cases a; cases b; simp_all

theorem Flt.val_ofRat {p : ℕ} {emin : ℤ} (q : ℚ) :
    (Flt.ofRat q : Flt p emin).val = roundTo p emin q := rfl

/-- A floating-point number is unchanged by rounding it again. -/
theorem Flt.round_val {p : ℕ} {emin : ℤ} (hp : 0 < p) (a : Flt p emin) :
    roundTo p emin a.val = a.val := by
  obtain ⟨r, hr⟩ := a.isRounded
  rw [← hr]
  exact roundTo_idem p hp emin r

/-- Storing the value of a floating-point number gives that number. -/
theorem Flt.ofRat_val {p : ℕ} {emin : ℤ} (hp : 0 < p) (a : Flt p emin) :
    Flt.ofRat a.val = a :=
  Flt.ext (Flt.round_val hp a)

/-- Every `float` is a `double`: the conversion is exact. -/
theorem F32.toF64_val (x : F32) : x.toF64.val = x.val := by
  obtain ⟨r, hr⟩ := x.isRounded
  obtain ⟨m, k, hm, hk, h⟩ := roundTo_isRepr 24 (-149) r
  have hv : x.val = m * 2 ^ k := by rw [← hr, h]
  show roundTo 53 (-1074) x.val = x.val
  rw [hv]
  exact roundTo_of_isRepr 53 (by norm_num) (-1074) m k (le_trans hm (by norm_num)) (by omega)

/-! ## Arithmetic of `float` with the constants 0 and 1 -/

theorem F32.val_zero : (0 : F32).val = 0 := by
  show roundTo 24 (-149) ((0 : ℕ) : ℚ) = 0
  simp [roundTo_zero]

theorem F32.val_one : (1 : F32).val = 1 := by decide!

theorem F32.val_seven : (7 : F32).val = 7 := by decide!

theorem F32.val_neg_one : (-1 : F32).val = -1 := by decide!

theorem F32.val_add (a b : F32) : (a + b).val = roundTo 24 (-149) (a.val + b.val) := rfl

theorem F32.val_sub (a b : F32) : (a - b).val = roundTo 24 (-149) (a.val - b.val) := rfl

theorem F32.val_mul (a b : F32) : (a * b).val = roundTo 24 (-149) (a.val * b.val) := rfl

theorem F32.addZero (a : F32) : a + 0 = a := by
  apply Flt.ext
  rw [F32.val_add, F32.val_zero, add_zero, Flt.round_val (by norm_num)]

theorem F32.zeroAdd (a : F32) : 0 + a = a := by
  apply Flt.ext
  rw [F32.val_add, F32.val_zero, zero_add, Flt.round_val (by norm_num)]

theorem F32.mulZero (a : F32) : a * 0 = 0 := by
  apply Flt.ext
  rw [F32.val_mul, F32.val_zero, mul_zero, roundTo_zero]

theorem F32.zeroMul (a : F32) : 0 * a = 0 := by
  apply Flt.ext
  rw [F32.val_mul, F32.val_zero, zero_mul, roundTo_zero]

theorem F32.mulOne (a : F32) : a * 1 = a := by
  apply Flt.ext
  rw [F32.val_mul, F32.val_one, mul_one, Flt.round_val (by norm_num)]

theorem F32.oneMul (a : F32) : 1 * a = a := by
  apply Flt.ext
  rw [F32.val_mul, F32.val_one, one_mul, Flt.round_val (by norm_num)]

/-! ## The movement system -/

namespace PlayerMovementSystem

theorem Execute_nil {n : ℕ} (dt : F32) (world : World n) : Execute [] dt world = world := rfl

theorem Execute_cons {n : ℕ} (i : Fin n) (entities : List (Fin n)) (dt : F32) (world : World n) :
    Execute (i :: entities) dt world
      = Execute entities dt (Function.update world i (step dt (world i))) := rfl

/-- An entity that is not in the vector is not touched. -/
theorem Execute_apply_of_not_mem {n : ℕ} (entities : List (Fin n)) (dt : F32) (world : World n)
    (i : Fin n) (hi : i ∉ entities) : Execute entities dt world i = world i := by
  induction entities generalizing world with
  | nil => rfl
  | cons j rest ih =>
    rw [Execute_cons, ih _ (fun h => hi (List.mem_cons_of_mem _ h))]
    have hne : i ≠ j := by
      rintro rfl
      exact hi (List.mem_cons_self _ _)
    exact Function.update_noteq hne _ _

/-- An entity that occurs once in the vector gets one iteration of the loop. -/
theorem Execute_apply_of_mem {n : ℕ} (entities : List (Fin n)) (dt : F32) (world : World n)
    (i : Fin n) (hnd : entities.Nodup) (hi : i ∈ entities) :
    Execute entities dt world i = step dt (world i) := by
  induction entities generalizing world with
  | nil => cases hi
  | cons j rest ih =>
    rw [Execute_cons]
    rw [List.nodup_cons] at hnd
    rcases List.mem_cons.mp hi with rfl | hmem
    · rw [Execute_apply_of_not_mem _ _ _ _ hnd.1, Function.update_same]
    · have hne : i ≠ j := fun h => hnd.1 (h ▸ hmem)
      rw [ih _ hnd.2 hmem, Function.update_noteq hne]

theorem step_of_both (dt : F32) (entity : Entity) (c : PlayerControllerComponent)
    (t : TransformComponent) (hc : entity.playerController = some c)
    (ht : entity.transform = some t) :
    step dt entity = { entity with transform := some (move c t dt) } := by
  unfold step
  rw [hc, ht]

theorem step_of_no_controller (dt : F32) (entity : Entity)
    (hc : entity.playerController = none) : step dt entity = entity := by
  unfold step
  rw [hc]

theorem step_of_no_transform (dt : F32) (entity : Entity)
    (ht : entity.transform = none) : step dt entity = entity := by
  unfold step
  rw [ht]
  cases entity.playerController <;> rfl

/-- The forward axis of the direction: 1, 0 or -1. -/
theorem direction_x (c : PlayerControllerComponent) :
    (0 : F32) + (if c.moveForward then 1 else 0) + (if c.moveBackward then -1 else 0)
      = (if c.moveForward then 1 else 0) - (if c.moveBackward then 1 else 0) := by
  cases c.moveForward <;> cases c.moveBackward <;> decide!

theorem move_position (c : PlayerControllerComponent) (t : TransformComponent) (dt : F32) :
    (move c t dt).position
      = ⟨t.position.x
          + ((if c.moveForward then 1 else 0) - (if c.moveBackward then 1 else 0)) * 7 * dt,
         t.position.y, t.position.z⟩ := by
  show t.position + ((⟨(0 : F32) + (if c.moveForward then 1 else 0)
      + (if c.moveBackward then -1 else 0), 0, 0⟩ : Vec3) * (7 : F32)) * dt = _
  rw [direction_x]
  show (⟨_, t.position.y + (0 : F32) * 7 * dt, t.position.z + (0 : F32) * 7 * dt⟩ : Vec3) = _
  rw [F32.zeroMul, F32.zeroMul, F32.addZero, F32.addZero]
  rfl

theorem val_double_06 : (0.6 : F64).val = 5404319552844595 / 9007199254740992 := by decide!

theorem val_neg_double_06 : (-(0.6 : F64)).val = -(5404319552844595 / 9007199254740992) := by
  decide!

theorem val_float_06 : (0.6 : F32).val = 5033165 / 8388608 := by decide!

theorem val_neg_float_06 : (-0.6 : F32).val = -(5033165 / 8388608) := by decide!

theorem toF32_double_06 : F64.toF32 0.6 = 0.6 := by decide!

theorem toF32_neg_double_06 : F64.toF32 (-0.6) = -0.6 := by decide!

/-- The two `if` statements of lines 34 to 38 on a yaw `v`. -/
theorem clamp_cases (v : F32) :
    (if (if (0.6 : F64) < v.toF64 then F64.toF32 0.6 else v).toF64 < -(0.6 : F64)
      then F64.toF32 (-0.6) else (if (0.6 : F64) < v.toF64 then F64.toF32 0.6 else v))
      = if (0.6 : F64).val < v.val then (0.6 : F32)
        else if v.val < -(0.6 : F64).val then (-0.6 : F32) else v := by
  have hlt : ∀ a b : F64, (a < b) = (a.val < b.val) := fun _ _ => rfl
  have hneg : (-(0.6 : F64)).val = -(0.6 : F64).val := by
    rw [val_neg_double_06, val_double_06]
  simp only [hlt, F32.toF64_val, toF32_double_06, toF32_neg_double_06, hneg]
  by_cases h1 : (0.6 : F64).val < v.val
  · have h2 : ¬ ((0.6 : F32).val < -(0.6 : F64).val) := by
      rw [val_float_06, val_double_06]; norm_num
    simp [h1, h2]
  · simp [h1]

theorem move_yaw (c : PlayerControllerComponent) (t : TransformComponent) (dt : F32) :
    (move c t dt).orientation.y
      = if (0.6 : F64).val
            < (t.orientation.y + (if c.moveLeft then -0.01 else 0)
                + (if c.moveRight then 0.01 else 0)).val
        then (0.6 : F32)
        else if (t.orientation.y + (if c.moveLeft then -0.01 else 0)
                  + (if c.moveRight then 0.01 else 0)).val < -(0.6 : F64).val
          then (-0.6 : F32)
          else t.orientation.y + (if c.moveLeft then -0.01 else 0)
                + (if c.moveRight then 0.01 else 0) :=
  clamp_cases _

/-- The yaw after the two `if` statements lies between `-0.6f` and `0.6f`. -/
theorem clamp_range (v : F32) :
    (-0.6 : F32).val
        ≤ (if (0.6 : F64).val < v.val then (0.6 : F32)
            else if v.val < -(0.6 : F64).val then (-0.6 : F32) else v).val ∧
      (if (0.6 : F64).val < v.val then (0.6 : F32)
        else if v.val < -(0.6 : F64).val then (-0.6 : F32) else v).val ≤ (0.6 : F32).val := by
  have h6 := val_float_06
  have hn6 := val_neg_float_06
  have hd := val_double_06
  by_cases h1 : (0.6 : F64).val < v.val
  · rw [if_pos h1, h6, hn6]; norm_num
  · rw [if_neg h1]
    by_cases h2 : v.val < -(0.6 : F64).val
    · rw [if_pos h2, h6, hn6]; norm_num
    · rw [if_neg h2, h6, hn6]
      rw [hd] at h1 h2
      constructor <;> linarith

theorem move_yaw_range (c : PlayerControllerComponent) (t : TransformComponent) (dt : F32) :
    (-0.6 : F32) ≤ (move c t dt).orientation.y ∧ (move c t dt).orientation.y ≤ (0.6 : F32) := by
  rw [move_yaw]
  exact clamp_range _

/-- What every iteration preserves holds of every entity after the loop. -/
theorem Execute_induction {n : ℕ} (P : Fin n → Entity → Prop) (dt : F32)
    (hstep : ∀ j e, P j e → P j (step dt e)) (entities : List (Fin n)) (world : World n)
    (h0 : ∀ j, P j (world j)) (j : Fin n) : P j (Execute entities dt world j) := by
  induction entities generalizing world with
  | nil => exact h0 j
  | cons k rest ih =>
    rw [Execute_cons]
    apply ih
    intro m
    by_cases hm : m = k
    · subst hm
      rw [Function.update_same]
      exact hstep _ _ (h0 _)
    · rw [Function.update_noteq hm]
      exact h0 m

/-- What every iteration preserves between two worlds holds between them after the loop. -/
theorem Execute_induction₂ {n : ℕ} (R : Fin n → Entity → Entity → Prop) (dt : F32)
    (hstep : ∀ j a b, R j a b → R j (step dt a) (step dt b)) (entities : List (Fin n))
    (w₁ w₂ : World n) (h0 : ∀ j, R j (w₁ j) (w₂ j)) (j : Fin n) :
    R j (Execute entities dt w₁ j) (Execute entities dt w₂ j) := by
  induction entities generalizing w₁ w₂ with
  | nil => exact h0 j
  | cons k rest ih =>
    rw [Execute_cons, Execute_cons]
    apply ih
    intro m
    by_cases hm : m = k
    · subst hm
      rw [Function.update_same, Function.update_same]
      exact hstep _ _ _ (h0 _)
    · rw [Function.update_noteq hm, Function.update_noteq hm]
      exact h0 m

/-- Apart from `position.x` and `orientation.y` the transform is kept. -/
theorem move_frame (c : PlayerControllerComponent) (t : TransformComponent) (dt : F32) :
    (move c t dt).position.y = t.position.y ∧ (move c t dt).position.z = t.position.z ∧
      (move c t dt).scale = t.scale ∧ (move c t dt).orientation.x = t.orientation.x ∧
      (move c t dt).orientation.z = t.orientation.z ∧
      (move c t dt).orientation.w = t.orientation.w := by
  refine ⟨?_, ?_, rfl, rfl, rfl, rfl⟩
  · rw [move_position]
  · rw [move_position]

/-- One iteration keeps every field of the entity but the transform, and keeps whether
there is a transform. -/
theorem step_fields (dt : F32) (e : Entity) :
    (step dt e).meshRenderer = e.meshRenderer ∧ (step dt e).playerController = e.playerController ∧
      (step dt e).net = e.net ∧ (step dt e).parentOf = e.parentOf ∧
      (step dt e).isBullet = e.isBullet ∧ (step dt e).inMotion = e.inMotion := by
  unfold step
  split <;> simp

theorem step_transform (dt : F32) (e : Entity) (t : TransformComponent)
    (ht : e.transform = some t) :
    (step dt e).transform = some t ∨
      ∃ c, e.playerController = some c ∧ (step dt e).transform = some (move c t dt) := by
  cases hc : e.playerController with
  | none => left; rw [step_of_no_controller _ _ hc, ht]
  | some c => right; exact ⟨c, rfl, by rw [step_of_both _ _ c t hc ht]⟩

end PlayerMovementSystem

/-! ## The remote-state loop of `Update` -/

namespace Engine

theorem overwrite_overwrite (s s' : NetworkedPosition) (t : TransformComponent) :
    overwrite s (overwrite s' t) = overwrite s t := rfl

theorem overwriteEntity_twice (s s' : NetworkedPosition) (e : Entity) :
    overwriteEntity s (overwriteEntity s' e) = overwriteEntity s e := by
  unfold overwriteEntity
  cases e.transform <;> simp [overwrite_overwrite]

theorem overwriteEntity_isSome (s : NetworkedPosition) (e : Entity) :
    (overwriteEntity s e).transform.isSome = e.transform.isSome := by
  unfold overwriteEntity
  cases e.transform <;> rfl

/-- An iteration that does not dereference null writes the overwritten entity back. -/
theorem applySlot_eq_some {n : ℕ} {roster : List (Fin n)} {positions : Fin 4 → NetworkedPosition}
    {world world' : World n} {slot : Fin 4} (h : applySlot roster positions world slot = some world') :
    ∃ entity, roster.get? slot = some entity ∧ (world entity).transform.isSome = true ∧
      world' = Function.update world entity (overwriteEntity (positions slot) (world entity)) := by
  unfold applySlot at h
  split at h
  · cases h
  · rename_i entity hr
    split at h
    · cases h
    · rename_i t ht
      refine ⟨entity, hr, by rw [ht]; rfl, ?_⟩
      simp only [Option.some.injEq] at h
      rw [← h]
      unfold overwriteEntity
      rw [ht]
      rfl

theorem applySlot_of {n : ℕ} (roster : List (Fin n)) (positions : Fin 4 → NetworkedPosition)
    (world : World n) (slot : Fin 4) (entity : Fin n) (hr : roster.get? slot = some entity)
    (ht : (world entity).transform.isSome = true) :
    applySlot roster positions world slot
      = some (Function.update world entity (overwriteEntity (positions slot) (world entity))) := by
  obtain ⟨t, ht'⟩ := Option.isSome_iff_exists.mp ht
  unfold applySlot overwriteEntity
  simp only [hr, ht']
  rfl

theorem overwrittenBy_cons {n : ℕ} (roster : List (Fin n)) (positions : Fin 4 → NetworkedPosition)
    (slot : Fin 4) (slots : List (Fin 4)) (i : Fin n) (x : Entity) :
    overwrittenBy roster positions (slot :: slots) i x
      = overwrittenBy roster positions slots i
          (if roster.get? slot = some i then overwriteEntity (positions slot) x else x) := by
  unfold overwrittenBy
  rw [List.foldl_cons]

/-- The iterations on one entity amount to nothing or to the last overwrite. -/
theorem overwrittenBy_cases {n : ℕ} (roster : List (Fin n)) (positions : Fin 4 → NetworkedPosition)
    (slots : List (Fin 4)) (i : Fin n) :
    (∀ x, overwrittenBy roster positions slots i x = x) ∨
      ∃ s, ∀ x, overwrittenBy roster positions slots i x = overwriteEntity s x := by
  induction slots with
  | nil => left; intro x; rfl
  | cons slot rest ih =>
    by_cases h : roster.get? slot = some i
    · right
      rcases ih with hid | ⟨s, hs⟩
      · exact ⟨positions slot, fun x => by rw [overwrittenBy_cons, if_pos h, hid]⟩
      · exact ⟨s, fun x => by rw [overwrittenBy_cons, if_pos h, hs, overwriteEntity_twice]⟩
    · rcases ih with hid | ⟨s, hs⟩
      · left; intro x; rw [overwrittenBy_cons, if_neg h, hid]
      · right; exact ⟨s, fun x => by rw [overwrittenBy_cons, if_neg h, hs]⟩

theorem overwrittenBy_idem {n : ℕ} (roster : List (Fin n)) (positions : Fin 4 → NetworkedPosition)
    (slots : List (Fin 4)) (i : Fin n) (x : Entity) :
    overwrittenBy roster positions slots i (overwrittenBy roster positions slots i x)
      = overwrittenBy roster positions slots i x := by
  rcases overwrittenBy_cases roster positions slots i with hid | ⟨s, hs⟩
  · rw [hid, hid]
  · rw [hs, hs, overwriteEntity_twice]

theorem overwrittenBy_isSome {n : ℕ} (roster : List (Fin n)) (positions : Fin 4 → NetworkedPosition)
    (slots : List (Fin 4)) (i : Fin n) (x : Entity) :
    (overwrittenBy roster positions slots i x).transform.isSome = x.transform.isSome := by
  rcases overwrittenBy_cases roster positions slots i with hid | ⟨s, hs⟩
  · rw [hid]
  · rw [hs, overwriteEntity_isSome]

theorem foldlM_cons_some {n : ℕ} (roster : List (Fin n)) (positions : Fin 4 → NetworkedPosition)
    (slot : Fin 4) (slots : List (Fin 4)) (world : World n) :
    (slot :: slots).foldlM (applySlot roster positions) world
      = (applySlot roster positions world slot).bind
          (fun w => slots.foldlM (applySlot roster positions) w) := by
  rw [List.foldlM_cons]
  rfl

/-- The loop, when it does not dereference null, leaves at every pointer the entity
overwritten by the iterations that address it. -/
theorem foldlM_applySlot_apply {n : ℕ} (roster : List (Fin n))
    (positions : Fin 4 → NetworkedPosition) (slots : List (Fin 4)) (world world' : World n)
    (h : slots.foldlM (applySlot roster positions) world = some world') (i : Fin n) :
    world' i = overwrittenBy roster positions slots i (world i) := by
  induction slots generalizing world with
  | nil =>
    simp only [List.foldlM_nil] at h
    cases h
    rfl
  | cons slot rest ih =>
    rw [foldlM_cons_some] at h
    cases h1 : applySlot roster positions world slot with
    | none => rw [h1] at h; cases h
    | some w1 =>
      rw [h1] at h
      obtain ⟨entity, hr, _, hw1⟩ := applySlot_eq_some h1
      rw [ih w1 h, overwrittenBy_cons, hw1, hr]
      by_cases hi : entity = i
      · subst hi
        rw [Function.update_same, if_pos rfl]
      · rw [Function.update_noteq (Ne.symm hi), if_neg (fun e => hi (Option.some.inj e))]

/-- The loop does not dereference null exactly when every slot it visits holds an
entity with a transform. -/
theorem foldlM_applySlot_isSome {n : ℕ} (roster : List (Fin n))
    (positions : Fin 4 → NetworkedPosition) (slots : List (Fin 4)) (world : World n) :
    (∃ world', slots.foldlM (applySlot roster positions) world = some world') ↔
      ∀ slot ∈ slots, ∃ entity, roster.get? slot = some entity ∧
        (world entity).transform.isSome = true := by
  induction slots generalizing world with
  | nil => simp
  | cons slot rest ih =>
    rw [foldlM_cons_some]
    constructor
    · rintro ⟨world', h⟩
      cases h1 : applySlot roster positions world slot with
      | none => rw [h1] at h; cases h
      | some w1 =>
        rw [h1] at h
        obtain ⟨entity, hr, ht, hw1⟩ := applySlot_eq_some h1
        have hrest := (ih w1).mp ⟨world', h⟩
        intro s hs
        rcases List.mem_cons.mp hs with rfl | hs
        · exact ⟨entity, hr, ht⟩
        · obtain ⟨e2, hr2, ht2⟩ := hrest s hs
          refine ⟨e2, hr2, ?_⟩
          rw [hw1] at ht2
          by_cases he : e2 = entity
          · subst he; exact ht
          · rwa [Function.update_noteq he] at ht2
    · intro hall
      obtain ⟨entity, hr, ht⟩ := hall slot (List.mem_cons_self _ _)
      rw [applySlot_of roster positions world slot entity hr ht]
      apply (ih _).mpr
      intro s hs
      obtain ⟨e2, hr2, ht2⟩ := hall s (List.mem_cons_of_mem _ hs)
      refine ⟨e2, hr2, ?_⟩
      by_cases he : e2 = entity
      · subst he
        rw [Function.update_same, overwriteEntity_isSome]
        exact ht
      · rwa [Function.update_noteq he]

/-- The loop run on its own result does not dereference null and changes nothing. -/
theorem applyRemoteState_again {n : ℕ} (roster : List (Fin n))
    (positions : Fin 4 → NetworkedPosition) (world world' : World n)
    (h : applyRemoteState roster positions world = some world') :
    applyRemoteState roster positions world' = some world' := by
  unfold applyRemoteState at h ⊢
  have hdef := (foldlM_applySlot_isSome roster positions _ world).mp ⟨world', h⟩
  have hpt := foldlM_applySlot_apply roster positions _ world world' h
  have hdef' : ∀ slot ∈ List.finRange 4, ∃ entity, roster.get? slot = some entity ∧
      (world' entity).transform.isSome = true := by
    intro s hs
    obtain ⟨entity, hr, ht⟩ := hdef s hs
    exact ⟨entity, hr, by rw [hpt, overwrittenBy_isSome]; exact ht⟩
  obtain ⟨w2, h2⟩ := (foldlM_applySlot_isSome roster positions _ world').mpr hdef'
  rw [h2]
  congr 1
  funext i
  rw [foldlM_applySlot_apply roster positions _ world' w2 h2 i, hpt, overwrittenBy_idem]

theorem overwrittenBy_of_not_mem {n : ℕ} (roster : List (Fin n))
    (positions : Fin 4 → NetworkedPosition) (slots : List (Fin 4)) (i : Fin n) (x : Entity)
    (h : ∀ j ∈ slots, roster.get? j ≠ some i) : overwrittenBy roster positions slots i x = x := by
  induction slots generalizing x with
  | nil => rfl
  | cons a rest ih =>
    rw [overwrittenBy_cons, if_neg (h a (List.mem_cons_self _ _))]
    exact ih x (fun j hj => h j (List.mem_cons_of_mem _ hj))

/-- An entity addressed by exactly one of the iterations is overwritten once. -/
theorem overwrittenBy_unique {n : ℕ} (roster : List (Fin n))
    (positions : Fin 4 → NetworkedPosition) (slots : List (Fin 4)) (i : Fin n) (x : Entity)
    (slot : Fin 4) (hnd : slots.Nodup) (hmem : slot ∈ slots)
    (huniq : ∀ j ∈ slots, roster.get? j = some i → j = slot) (hr : roster.get? slot = some i) :
    overwrittenBy roster positions slots i x = overwriteEntity (positions slot) x := by
  induction slots generalizing x with
  | nil => cases hmem
  | cons a rest ih =>
    rw [List.nodup_cons] at hnd
    rw [overwrittenBy_cons]
    by_cases ha : a = slot
    · subst ha
      rw [if_pos hr]
      apply overwrittenBy_of_not_mem
      intro j hj hrj
      have := huniq j (List.mem_cons_of_mem _ hj) hrj
      exact hnd.1 (this ▸ hj)
    · have hna : roster.get? a ≠ some i := fun e => ha (huniq a (List.mem_cons_self _ _) e)
      rw [if_neg hna]
      rcases List.mem_cons.mp hmem with e | hm
      · exact absurd e.symm ha
      · exact ih x hnd.2 hm (fun j hj => huniq j (List.mem_cons_of_mem _ hj))

end Engine

/-! ## `Resize`, `AddSystem` and the phases of `Update` -/

namespace Engine

theorem foldl_AddSystem_m_Systems {n : ℕ} (systems : List (System n)) (e : Engine n) :
    (systems.foldl AddSystem e).m_Systems = e.m_Systems ++ systems := by
  induction systems generalizing e with
  | nil => simp
  | cons s rest ih =>
    rw [List.foldl_cons, ih]
    simp [AddSystem]

theorem foldl_AddSystem_executed {n : ℕ} (systems : List (System n)) (e : Engine n) :
    (systems.foldl AddSystem e).executed = e.executed := by
  induction systems generalizing e with
  | nil => rfl
  | cons s rest ih =>
    rw [List.foldl_cons, ih]
    rfl

theorem captureInput_fields {n : ℕ} (e e₁ : Engine n) (h : e.captureInput = some e₁) :
    e₁.m_Systems = e.m_Systems ∧ e₁.executed = e.executed := by
  unfold captureInput at h
  split at h
  · cases h
  · simp only [Option.some.injEq] at h
    rw [← h]
    exact ⟨rfl, rfl⟩

theorem captureInput_isSome {n : ℕ} (e : Engine n)
    (h : (e.world e.m_Player).playerController.isSome = true) :
    ∃ e₁, e.captureInput = some e₁ := by
  obtain ⟨c, hc⟩ := Option.isSome_iff_exists.mp h
  unfold captureInput
  rw [hc]
  exact ⟨_, rfl⟩

/-- The loop over the systems appends one call per element of the list, in its order. -/
theorem foldl_systems_executed {n : ℕ} (entities : List (Fin n)) (dt : F32)
    (systems : List (System n)) (e : Engine n) :
    (systems.foldl
        (fun (e : Engine n) (system : System n) =>
          { e with
            world := system.Execute entities dt e.world
            executed := e.executed ++ [⟨system, entities, dt⟩] })
        e).executed
      = e.executed ++ systems.map (fun s => ⟨s, entities, dt⟩) := by
  induction systems generalizing e with
  | nil => simp
  | cons s rest ih =>
    rw [List.foldl_cons, ih]
    simp

/-- The loop over the systems applies `Execute` of each element of the list to the
world, in the order of the list, each with the same vector and the same `dt`. -/
theorem foldl_systems_world {n : ℕ} (entities : List (Fin n)) (dt : F32)
    (systems : List (System n)) (e : Engine n) :
    (systems.foldl
        (fun (e : Engine n) (system : System n) =>
          { e with
            world := system.Execute entities dt e.world
            executed := e.executed ++ [⟨system, entities, dt⟩] })
        e).world
      = systems.foldl (fun (world : World n) (system : System n) =>
          system.Execute entities dt world) e.world := by
  induction systems generalizing e with
  | nil => rfl
  | cons s rest ih =>
    rw [List.foldl_cons, List.foldl_cons, ih]

theorem executeSystems_world {n : ℕ} (e : Engine n) (dt : F32) :
    (e.executeSystems dt).world
      = e.m_Systems.foldl (fun (world : World n) (system : System n) =>
          system.Execute (GetEntities n) dt world) e.world :=
  foldl_systems_world (GetEntities n) dt e.m_Systems e

theorem executeSystems_executed {n : ℕ} (e : Engine n) (dt : F32) :
    (e.executeSystems dt).executed
      = e.executed ++ e.m_Systems.map (fun s => ⟨s, GetEntities n, dt⟩) :=
  foldl_systems_executed (GetEntities n) dt e.m_Systems e

theorem publish_executed {n : ℕ} (e e' : Engine n) (poll : NetworkManager → NetworkManager)
    (h : e.publish poll = some e') :
    e'.executed = e.executed ∧ e'.world = e.world ∧
      e'.m_NetworkedEntities = e.m_NetworkedEntities := by
  unfold publish at h
  split at h
  · simp only [Option.some.injEq] at h
    rw [← h]
    exact ⟨rfl, rfl, rfl⟩
  · cases h

theorem publish_isSome {n : ℕ} (e : Engine n) (poll : NetworkManager → NetworkManager)
    (ht : (e.world e.m_Player).transform.isSome = true)
    (hc : (e.world e.m_Player).playerController.isSome = true) :
    ∃ e', e.publish poll = some e' := by
  obtain ⟨t, ht'⟩ := Option.isSome_iff_exists.mp ht
  obtain ⟨c, hc'⟩ := Option.isSome_iff_exists.mp hc
  unfold publish
  rw [ht', hc']
  exact ⟨_, rfl⟩

theorem Update_eq {n : ℕ} (e : Engine n) (dt : F32) (poll : NetworkManager → NetworkManager) :
    e.Update dt poll
      = e.captureInput.bind (fun e₁ =>
          ((e₁.executeSystems dt).publish poll).bind (fun e₃ =>
            (applyRemoteState e₃.m_NetworkedEntities e₃.m_NetworkManager.m_NetworkedPositions
              e₃.world).bind (fun world => some { e₃ with world := world }))) := rfl

/-- The calls recorded by an `Update` that returns are those of its system phase. -/
theorem Update_executed {n : ℕ} (e r : Engine n) (dt : F32)
    (poll : NetworkManager → NetworkManager) (h : e.Update dt poll = some r) :
    r.executed = e.executed ++ e.m_Systems.map (fun s => ⟨s, GetEntities n, dt⟩) := by
  rw [Update_eq] at h
  obtain ⟨e₁, h1, h⟩ := Option.bind_eq_some.mp h
  obtain ⟨e₃, h3, h⟩ := Option.bind_eq_some.mp h
  obtain ⟨world, _, h⟩ := Option.bind_eq_some.mp h
  simp only [Option.some.injEq] at h
  obtain ⟨hs, hx⟩ := captureInput_fields e e₁ h1
  rw [← h]
  show e₃.executed = _
  rw [(publish_executed _ _ poll h3).1, executeSystems_executed, hs, hx]

/-- An `Update` that returns has captured the input, run the systems, published the
state of the player and run the remote-state loop on the world the systems left. -/
theorem Update_world {n : ℕ} (e r : Engine n) (dt : F32)
    (poll : NetworkManager → NetworkManager) (h : e.Update dt poll = some r) :
    ∃ e₁ e₃, e.captureInput = some e₁ ∧ (e₁.executeSystems dt).publish poll = some e₃ ∧
      applyRemoteState e₃.m_NetworkedEntities e₃.m_NetworkManager.m_NetworkedPositions
        (e₁.executeSystems dt).world = some r.world := by
  rw [Update_eq] at h
  obtain ⟨e₁, h1, h⟩ := Option.bind_eq_some.mp h
  obtain ⟨e₃, h3, h⟩ := Option.bind_eq_some.mp h
  obtain ⟨world, h5, h⟩ := Option.bind_eq_some.mp h
  simp only [Option.some.injEq] at h
  refine ⟨e₁, e₃, h1, h3, ?_⟩
  rw [← (publish_executed _ _ poll h3).2.1, h5, ← h]

/-- `Update` returns when the player has a controller and, after the systems have run,
the components it reaches are present. -/
theorem Update_isSome {n : ℕ} (e e₁ : Engine n) (dt : F32)
    (poll : NetworkManager → NetworkManager) (h1 : e.captureInput = some e₁)
    (hp : (e₁.executeSystems dt).componentsPresent) : ∃ r, e.Update dt poll = some r := by
  obtain ⟨ht, hc, hroster⟩ := hp
  obtain ⟨e₃, h3⟩ := publish_isSome (e₁.executeSystems dt) poll ht hc
  obtain ⟨_, hw, hr⟩ := publish_executed _ _ poll h3
  obtain ⟨world', h5⟩ := (foldlM_applySlot_isSome e₃.m_NetworkedEntities
      e₃.m_NetworkManager.m_NetworkedPositions (List.finRange 4) e₃.world).mpr
    (fun slot _ => by rw [hw, hr]; exact hroster slot)
  refine ⟨{ e₃ with world := world' }, ?_⟩
  rw [Update_eq, h1, Option.some_bind, h3, Option.some_bind]
  unfold applyRemoteState
  rw [h5, Option.some_bind]

end Engine

/-! ## The entity loop of `Render` -/

theorem Vec4.smul_def (a : Vec4) (s : F32) : a * s = ⟨a.x * s, a.y * s, a.z * s, a.w * s⟩ := rfl

theorem Vec4.add_def (a b : Vec4) : a + b = ⟨a.x + b.x, a.y + b.y, a.z + b.z, a.w + b.w⟩ := rfl

theorem Mat4.mul_def (a b : Mat4) : a * b = Mat4.mul a b := rfl

namespace Engine

/-- The matrix `glm::translate(glm::mat4(1.f), p)`. -/
theorem translate_diag (p : Vec3) :
    glm.translate (Mat4.diag 1) p
      = ⟨⟨1, 0, 0, 0⟩, ⟨0, 1, 0, 0⟩, ⟨0, 0, 1, 0⟩, ⟨p.x, p.y, p.z, 1⟩⟩ := by
  simp only [glm.translate, Mat4.diag, Vec4.smul_def, Vec4.add_def, F32.oneMul, F32.zeroMul,
    F32.addZero, F32.zeroAdd]

/-- The matrix `glm::scale(glm::mat4(1.f), s)`. -/
theorem scale_diag (s : Vec3) :
    glm.scale (Mat4.diag 1) s
      = ⟨⟨s.x, 0, 0, 0⟩, ⟨0, s.y, 0, 0⟩, ⟨0, 0, s.z, 0⟩, ⟨0, 0, 0, 1⟩⟩ := by
  simp only [glm.scale, Mat4.diag, Vec4.smul_def, F32.oneMul, F32.zeroMul]

/-- The product translation times scale. -/
theorem translate_mul_scale (p s : Vec3) :
    glm.translate (Mat4.diag 1) p * glm.scale (Mat4.diag 1) s
      = ⟨⟨s.x, 0, 0, 0⟩, ⟨0, s.y, 0, 0⟩, ⟨0, 0, s.z, 0⟩, ⟨p.x, p.y, p.z, 1⟩⟩ := by
  rw [translate_diag, scale_diag, Mat4.mul_def]
  simp only [Mat4.mul, Vec4.smul_def, Vec4.add_def, F32.oneMul, F32.zeroMul, F32.mulZero,
    F32.mulOne, F32.addZero, F32.zeroAdd]

/-- The product with a matrix whose last row and column are those of the identity: each
row of its 3x3 block is multiplied by the scale of that row, and the position is the
last column. -/
theorem modelMatrix_of_affine (p s : Vec3) (r : Mat4) (h0 : r.c0.w = 0) (h1 : r.c1.w = 0)
    (h2 : r.c2.w = 0) (h3 : r.c3 = ⟨0, 0, 0, 1⟩) :
    glm.translate (Mat4.diag 1) p * glm.scale (Mat4.diag 1) s * r
      = ⟨⟨s.x * r.c0.x, s.y * r.c0.y, s.z * r.c0.z, 0⟩,
         ⟨s.x * r.c1.x, s.y * r.c1.y, s.z * r.c1.z, 0⟩,
         ⟨s.x * r.c2.x, s.y * r.c2.y, s.z * r.c2.z, 0⟩,
         ⟨p.x, p.y, p.z, 1⟩⟩ := by
  rw [translate_mul_scale, Mat4.mul_def]
  simp only [Mat4.mul, Vec4.smul_def, Vec4.add_def, h0, h1, h2, h3, F32.oneMul, F32.zeroMul,
    F32.mulZero, F32.mulOne, F32.addZero, F32.zeroAdd]

theorem renderEntity_of_both {n : ℕ} (e : Engine n) (entity : Entity)
    (renderer : MeshRendererComponent) (transform : TransformComponent)
    (hm : entity.meshRenderer = some renderer) (ht : entity.transform = some transform) :
    e.renderEntity entity
      = [GLCall.glUniformMatrix4fv e.m_ModelMatrixUL (modelMatrix transform),
         GLCall.glUniform3fv e.m_ColorUL renderer.color,
         GLCall.glBindVertexArray renderer.vbo,
         GLCall.glDrawElements (toGLsizei (renderer.numTriangles * 3))] := by
  simp [renderEntity, Entity.hasMeshRenderer, Entity.hasTransform, hm, ht]

theorem renderEntity_of_lacking {n : ℕ} (e : Engine n) (entity : Entity)
    (h : entity.meshRenderer = none ∨ entity.transform = none) : e.renderEntity entity = [] := by
  rcases h with h | h <;> simp [renderEntity, Entity.hasMeshRenderer, Entity.hasTransform, h]

theorem flatMap_filter_of_nil {α β : Type} (p : α → Bool) (f : α → List β) (l : List α)
    (h : ∀ x, p x = false → f x = []) : l.flatMap f = (l.filter p).flatMap f := by
  induction l with
  | nil => rfl
  | cons a rest ih =>
    cases hp : p a
    · rw [List.filter_cons_of_neg (by simp [hp]), List.flatMap_cons, h a hp, ih, List.nil_append]
    · rw [List.filter_cons_of_pos hp, List.flatMap_cons, List.flatMap_cons, ih]

theorem toGLsizei_of_lt (k : ℕ) (h : k < 2 ^ 31) : toGLsizei k = k := by
  unfold toGLsizei
  have h' : (k : ℤ) < 2 ^ 31 := by exact_mod_cast h
  rw [Int.emod_eq_of_lt (by positivity) (by linarith)]
  ring

/-- With a transform in the camera entity, `Render` issues the clear, the two uploads
computed from the window size and the camera position, the calls of the loop and the
swap. -/
theorem Render_of_camera {n : ℕ} (e : Engine n) (projection : ℤ → ℤ → Mat4)
    (view : Vec3 → Mat4) (cameraTransform : TransformComponent)
    (h : (e.world e.m_CameraEntity).transform = some cameraTransform) :
    e.Render projection view
      = some ([GLCall.glClear,
            GLCall.glUniformMatrix4fv e.m_ProjectionMatrixUL
              (projection e.m_WindowWidth e.m_WindowHeight),
            GLCall.glUniformMatrix4fv e.m_ViewMatrixUL (view cameraTransform.position)]
          ++ e.renderEntities ++ [GLCall.glutSwapBuffers]) := by
  unfold Render
  rw [h]

theorem renderEntities_eq_filter {n : ℕ} (e : Engine n) :
    e.renderEntities
      = ((GetEntities n).filter
          (fun i => (e.world i).meshRenderer.isSome && (e.world i).transform.isSome)).flatMap
        (fun i => e.renderEntity (e.world i)) := by
  apply flatMap_filter_of_nil
  intro i hi
  apply renderEntity_of_lacking
  cases hm : (e.world i).meshRenderer with
  | none => left; rfl
  | some r =>
    right
    cases ht : (e.world i).transform with
    | none => rfl
    | some t => simp [hm, ht] at hi

end Engine

/-! ## The claims -/

/-- C1: for an entity with a controller `c` and a transform `t` that occurs once in the
vector, `Execute` leaves the position `(x + d * 7 * dt, y, z)` with
`d = (1 if moveForward else 0) - (1 if moveBackward else 0)`, in `float` arithmetic;
forward only with `dt = 0.1` from the origin gives `(0.7, 0, 0)`, and with both intents
the position is unchanged. -/
theorem C1_execute_position {n : ℕ} (entities : List (Fin n)) (dt : F32) (world : World n)
    (i : Fin n) (c : PlayerControllerComponent) (t : TransformComponent)
    (hnd : entities.Nodup) (hi : i ∈ entities)
    (hc : (world i).playerController = some c) (ht : (world i).transform = some t) :
    ∃ t', (PlayerMovementSystem.Execute entities dt world i).transform = some t' ∧
      t'.position
        = ⟨t.position.x
            + ((if c.moveForward then 1 else 0) - (if c.moveBackward then 1 else 0)) * 7 * dt,
           t.position.y, t.position.z⟩ ∧
      (c.moveForward = true → c.moveBackward = false → dt = 0.1 → t.position = ⟨0, 0, 0⟩ →
        t'.position = ⟨0.7, 0, 0⟩) ∧
      (c.moveForward = true → c.moveBackward = true → t'.position = t.position) := by
  refine ⟨PlayerMovementSystem.move c t dt, ?_, PlayerMovementSystem.move_position c t dt, ?_, ?_⟩
  · rw [PlayerMovementSystem.Execute_apply_of_mem _ _ _ _ hnd hi,
      PlayerMovementSystem.step_of_both _ _ c t hc ht]
  · intro hf hb hdt hp
    rw [PlayerMovementSystem.move_position, hf, hb, hdt, hp]
    decide!
  · intro hf hb
    rw [PlayerMovementSystem.move_position, hf, hb]
    have h0 : ((if true = true then (1 : F32) else 0) - (if true = true then 1 else 0)) = 0 := by
      decide!
    rw [h0, F32.zeroMul, F32.zeroMul, F32.addZero]

/-- C1 at the two-entity world: the player ends at `(0.7, 0, 0)` after one frame of 0.1 s. -/
theorem C1_execute_position_witness :
    ∃ t', (PlayerMovementSystem.Execute [0, 1] 0.1 forwardWorld 0).transform = some t' ∧
      t'.position = ⟨0.7, 0, 0⟩ := by
  obtain ⟨t', h1, _, h3, _⟩ := C1_execute_position [0, 1] 0.1 forwardWorld 0
    { moveForward := true } ⟨⟨0, 0, 0⟩, ⟨1, 1, 1⟩, ⟨0, 0, 0, 1⟩⟩ (by decide) (by decide) rfl rfl
  exact ⟨t', h1, h3 rfl rfl rfl rfl⟩

/-- C2 as stated fails: from yaw 0.59 with only `moveRight` the `float` sum
`0.59f + 0.01f` is 10066329 / 2^24, one unit in the last place below `0.6f`, it is not
greater than 0.6 and is stored unclamped, so the yaw is not 0.6; and with both strafing
intents from yaw 0.05 the result `(0.05f - 0.01f) + 0.01f` is not `0.05f + (-0.01f + 0.01f)`. -/
theorem C2_yaw_counterexample :
    (∃ t', (PlayerMovementSystem.Execute [0] 0.1 yawWorld 0).transform = some t' ∧
      t'.orientation.y.val = 10066329 / 16777216 ∧
      (0.6 : F32).val = 10066330 / 16777216 ∧
      t'.orientation.y ≠ 0.6) ∧
    (∃ t', (PlayerMovementSystem.Execute [0] 0.1 strafeBothWorld 0).transform = some t' ∧
      t'.orientation.y.val = 13421772 / 268435456 ∧
      ((0.05 : F32) + (-0.01 + 0.01)).val = 13421773 / 268435456) := by
  refine ⟨⟨_, rfl, ?_, ?_, ?_⟩, ⟨_, rfl, ?_, ?_⟩⟩ <;> decide!

/-- C2, amended: for an entity with a controller `c` and a transform `t` that occurs once
in the vector, `Execute` leaves the yaw `clamp ((y + l) + r)` in `float` arithmetic, with
`l = -0.01f` if `moveLeft` else 0 and `r = 0.01f` if `moveRight` else 0, where `clamp v`
is `0.6f` if `v > 0.6`, `-0.6f` if `v < -0.6` and `v` otherwise; the yaw lies between
`-0.6f` and `0.6f`, is the same for every `dt`, and from 0.59 with only `moveRight` it is
10066329 / 2^24, just below `0.6f`. -/
theorem C2_execute_yaw {n : ℕ} (entities : List (Fin n)) (dt : F32) (world : World n)
    (i : Fin n) (c : PlayerControllerComponent) (t : TransformComponent)
    (hnd : entities.Nodup) (hi : i ∈ entities)
    (hc : (world i).playerController = some c) (ht : (world i).transform = some t) :
    ∃ t', (PlayerMovementSystem.Execute entities dt world i).transform = some t' ∧
      t'.orientation.y
        = (if (0.6 : F64).val
              < (t.orientation.y + (if c.moveLeft then -0.01 else 0)
                  + (if c.moveRight then 0.01 else 0)).val
          then (0.6 : F32)
          else if (t.orientation.y + (if c.moveLeft then -0.01 else 0)
                    + (if c.moveRight then 0.01 else 0)).val < -(0.6 : F64).val
            then (-0.6 : F32)
            else t.orientation.y + (if c.moveLeft then -0.01 else 0)
                  + (if c.moveRight then 0.01 else 0)) ∧
      ((-0.6 : F32) ≤ t'.orientation.y ∧ t'.orientation.y ≤ (0.6 : F32)) ∧
      (∀ dt' : F32, ∃ t'', (PlayerMovementSystem.Execute entities dt' world i).transform = some t'' ∧
        t''.orientation.y = t'.orientation.y) ∧
      (t.orientation.y = 0.59 → c.moveLeft = false → c.moveRight = true →
        t'.orientation.y.val = 10066329 / 16777216) := by
  have hex : ∀ d : F32, (PlayerMovementSystem.Execute entities d world i).transform
      = some (PlayerMovementSystem.move c t d) := by
    intro d
    rw [PlayerMovementSystem.Execute_apply_of_mem _ _ _ _ hnd hi,
      PlayerMovementSystem.step_of_both _ _ c t hc ht]
  refine ⟨PlayerMovementSystem.move c t dt, hex dt, PlayerMovementSystem.move_yaw c t dt,
    PlayerMovementSystem.move_yaw_range c t dt, ?_, ?_⟩
  · intro dt'
    exact ⟨_, hex dt', by rw [PlayerMovementSystem.move_yaw, PlayerMovementSystem.move_yaw]⟩
  · intro hy hl hr
    rw [PlayerMovementSystem.move_yaw, hy, hl, hr]
    decide!

/-- C2, amended, at the one-entity world: the yaw 0.59 becomes 10066329 / 2^24. -/
theorem C2_execute_yaw_witness :
    ∃ t', (PlayerMovementSystem.Execute [0] 0.1 yawWorld 0).transform = some t' ∧
      t'.orientation.y.val = 10066329 / 16777216 := by
  obtain ⟨t', h1, _, _, _, h5⟩ := C2_execute_yaw [0] 0.1 yawWorld 0
    { moveRight := true } ⟨⟨0, 0, 0⟩, ⟨1, 1, 1⟩, ⟨0, 0.59, 0, 1⟩⟩ (by decide) (by decide) rfl rfl
  exact ⟨t', h1, h5 rfl rfl rfl⟩

/-- C8: `Execute` changes nothing but `position.x` and `orientation.y` of the transform of
entities that have both a controller and a transform: the other components, the flags,
the controller intents, position `y` and `z`, the scale and orientation `x`, `z`, `w` are
kept; an entity that lacks the controller or the transform is untouched; and the
positions after `Execute` are the same whatever `moveLeft` and `moveRight` are set to. -/
theorem C8_execute_frame {n : ℕ} (entities : List (Fin n)) (dt : F32) (world : World n)
    (i : Fin n) :
    ((PlayerMovementSystem.Execute entities dt world i).meshRenderer = (world i).meshRenderer ∧
      (PlayerMovementSystem.Execute entities dt world i).playerController
        = (world i).playerController ∧
      (PlayerMovementSystem.Execute entities dt world i).net = (world i).net ∧
      (PlayerMovementSystem.Execute entities dt world i).parentOf = (world i).parentOf ∧
      (PlayerMovementSystem.Execute entities dt world i).isBullet = (world i).isBullet ∧
      (PlayerMovementSystem.Execute entities dt world i).inMotion = (world i).inMotion) ∧
    (∀ t, (world i).transform = some t →
      ∃ t', (PlayerMovementSystem.Execute entities dt world i).transform = some t' ∧
        t'.position.y = t.position.y ∧ t'.position.z = t.position.z ∧ t'.scale = t.scale ∧
        t'.orientation.x = t.orientation.x ∧ t'.orientation.z = t.orientation.z ∧
        t'.orientation.w = t.orientation.w) ∧
    (((world i).playerController = none ∨ (world i).transform = none) →
      PlayerMovementSystem.Execute entities dt world i = world i) ∧
    (∀ l r : Fin n → Bool,
      (PlayerMovementSystem.Execute entities dt
          (fun j => { world j with
            playerController := (world j).playerController.map
              (fun c => { c with moveLeft := l j, moveRight := r j }) }) i).transform.map
          (fun t => t.position)
        = (PlayerMovementSystem.Execute entities dt world i).transform.map
          (fun t => t.position)) := by
  refine ⟨?_, ?_, ?_, ?_⟩
  · refine PlayerMovementSystem.Execute_induction
      (fun j e => e.meshRenderer = (world j).meshRenderer ∧
        e.playerController = (world j).playerController ∧ e.net = (world j).net ∧
        e.parentOf = (world j).parentOf ∧ e.isBullet = (world j).isBullet ∧
        e.inMotion = (world j).inMotion) dt ?_ entities world ?_ i
    · intro j e h
      obtain ⟨h1, h2, h3, h4, h5, h6⟩ := PlayerMovementSystem.step_fields dt e
      exact ⟨h1.trans h.1, h2.trans h.2.1, h3.trans h.2.2.1, h4.trans h.2.2.2.1,
        h5.trans h.2.2.2.2.1, h6.trans h.2.2.2.2.2⟩
    · intro j
      exact ⟨rfl, rfl, rfl, rfl, rfl, rfl⟩
  · refine PlayerMovementSystem.Execute_induction
      (fun j e => ∀ t, (world j).transform = some t →
        ∃ t', e.transform = some t' ∧
          t'.position.y = t.position.y ∧ t'.position.z = t.position.z ∧ t'.scale = t.scale ∧
          t'.orientation.x = t.orientation.x ∧ t'.orientation.z = t.orientation.z ∧
          t'.orientation.w = t.orientation.w) dt ?_ entities world ?_ i
    · intro j e h t ht
      obtain ⟨t₁, h1, hy, hz, hs, hox, hoz, how⟩ := h t ht
      rcases PlayerMovementSystem.step_transform dt e t₁ h1 with h2 | ⟨c, _, h2⟩
      · exact ⟨t₁, h2, hy, hz, hs, hox, hoz, how⟩
      · obtain ⟨m1, m2, m3, m4, m5, m6⟩ := PlayerMovementSystem.move_frame c t₁ dt
        exact ⟨_, h2, m1.trans hy, m2.trans hz, m3.trans hs, m4.trans hox, m5.trans hoz,
          m6.trans how⟩
    · intro j t ht
      exact ⟨t, ht, rfl, rfl, rfl, rfl, rfl, rfl⟩
  · refine PlayerMovementSystem.Execute_induction
      (fun j e => ((world j).playerController = none ∨ (world j).transform = none) →
        e = world j) dt ?_ entities world ?_ i
    · intro j e h hw
      have he := h hw
      rw [he]
      rcases hw with hc | ht
      · exact PlayerMovementSystem.step_of_no_controller _ _ hc
      · exact PlayerMovementSystem.step_of_no_transform _ _ ht
    · intro j _
      rfl
  · intro l r
    refine PlayerMovementSystem.Execute_induction₂
      (fun _ a b => a.transform.map (fun t => t.position) = b.transform.map (fun t => t.position) ∧
        a.playerController.map (fun c => (c.moveForward, c.moveBackward))
          = b.playerController.map (fun c => (c.moveForward, c.moveBackward))) dt ?_ entities _ _ ?_ i
      |>.1
    · intro j a b h
      obtain ⟨h1, h2⟩ := h
      obtain ⟨f1, f2, -⟩ := PlayerMovementSystem.step_fields dt a
      obtain ⟨g1, g2, -⟩ := PlayerMovementSystem.step_fields dt b
      refine ⟨?_, by rw [f2, g2, h2]⟩
      unfold PlayerMovementSystem.step
      cases ha : a.playerController <;> cases hb : b.playerController <;>
        cases hta : a.transform <;> cases htb : b.transform <;>
        simp_all [PlayerMovementSystem.move_position]
    · intro j
      constructor
      · rfl
      · cases (world j).playerController <;> rfl

/-- C8 at the two-entity world: the player keeps its controller, its height and its
scale, and the entity with no component is returned as it was. -/
theorem C8_execute_frame_witness :
    (PlayerMovementSystem.Execute [0, 1] 0.1 forwardWorld 0).playerController
        = some { moveForward := true } ∧
      (∃ t', (PlayerMovementSystem.Execute [0, 1] 0.1 forwardWorld 0).transform = some t' ∧
        t'.position.y = 0 ∧ t'.position.z = 0 ∧ t'.scale = ⟨1, 1, 1⟩) ∧
      PlayerMovementSystem.Execute [0, 1] 0.1 forwardWorld 1 = {} := by
  obtain ⟨⟨_, h2, _⟩, ht, hl, _⟩ := C8_execute_frame [0, 1] 0.1 forwardWorld 0
  obtain ⟨t', h, hy, hz, hs, _⟩ := ht ⟨⟨0, 0, 0⟩, ⟨1, 1, 1⟩, ⟨0, 0, 0, 1⟩⟩ rfl
  exact ⟨h2, ⟨t', h, hy, hz, hs⟩,
    (C8_execute_frame [0, 1] 0.1 forwardWorld 1).2.2.1 (Or.inl rfl)⟩

/-- C3: when the four roster slots hold four different entities that have a transform,
the remote-state loop of `Update` runs through and leaves, in the transform of the entity
of every slot `i`, `position.x`, `position.z`, `orientation.x` and `orientation.z` equal to
the fields `x`, `z`, `l` and `r` of snapshot `i`, whatever the transform held before, and
`position.y`, `orientation.y`, `orientation.w` and the scale as they were. -/
theorem C3_remote_state_overwrite {n : ℕ} (roster : List (Fin n))
    (positions : Fin 4 → NetworkedPosition) (world : World n)
    (hroster : ∀ slot : Fin 4, ∃ entity, roster.get? slot = some entity ∧
      (world entity).transform.isSome = true)
    (hinj : ∀ i j : Fin 4, roster.get? i = roster.get? j → i = j) :
    ∃ world', Engine.applyRemoteState roster positions world = some world' ∧
      ∀ (slot : Fin 4) (entity : Fin n) (t : TransformComponent),
        roster.get? slot = some entity → (world entity).transform = some t →
        ∃ t', (world' entity).transform = some t' ∧
          t'.position.x = (positions slot).x ∧ t'.position.z = (positions slot).z ∧
          t'.orientation.x = (positions slot).l ∧ t'.orientation.z = (positions slot).r ∧
          t'.position.y = t.position.y ∧ t'.orientation.y = t.orientation.y ∧
          t'.orientation.w = t.orientation.w ∧ t'.scale = t.scale := by
  obtain ⟨world', h⟩ := (Engine.foldlM_applySlot_isSome roster positions (List.finRange 4) world).mpr
    (fun slot _ => hroster slot)
  refine ⟨world', h, ?_⟩
  intro slot entity t hr ht
  have hpt := Engine.foldlM_applySlot_apply roster positions _ world world' h entity
  rw [Engine.overwrittenBy_unique roster positions _ entity (world entity) slot
    (List.nodup_finRange 4) (List.mem_finRange slot)
    (fun j _ hj => hinj j slot (hj.trans hr.symm)) hr] at hpt
  refine ⟨Engine.overwrite (positions slot) t, ?_, rfl, rfl, rfl, rfl, rfl, rfl, rfl, rfl⟩
  rw [hpt]
  unfold overwriteEntity
  rw [ht]
  rfl

/-- C3 at the sample world: the loop runs through and the bullet of slot 2 (entity 3)
ends with `position.x = 5` and `position.z = 6`, and keeps `position.y = 50`. -/
theorem C3_remote_state_overwrite_witness :
    ∃ world', Engine.applyRemoteState [1, 2, 3, 4] samplePositions sampleWorld = some world' ∧
      ∃ t', (world' 3).transform = some t' ∧ t'.position.x = 5 ∧ t'.position.z = 6 ∧
        t'.position.y = 50 := by
  obtain ⟨world', h, hall⟩ := C3_remote_state_overwrite [1, 2, 3, 4] samplePositions sampleWorld
    (by decide) (by decide)
  obtain ⟨t', h1, h2, h3, _, _, h6, _⟩ := hall 2 3 ⟨⟨-30, 50, 0⟩, ⟨1, 1, 1⟩, ⟨0, 0, 0, 1⟩⟩ rfl rfl
  exact ⟨world', h, t', h1, h2, h3, h6⟩

/-- C4: for every world and every snapshot array, running the remote-state loop of
`Update` a second time with the same snapshots gives what the first run gave (and a null
dereference in the first run is one in the composition); when every slot holds an entity
with a transform both runs go through and end in the same world. -/
theorem C4_remote_state_idempotent {n : ℕ} (roster : List (Fin n))
    (positions : Fin 4 → NetworkedPosition) (world : World n) :
    (Engine.applyRemoteState roster positions world).bind (Engine.applyRemoteState roster positions)
        = Engine.applyRemoteState roster positions world ∧
      ((∀ slot : Fin 4, ∃ entity, roster.get? slot = some entity ∧
          (world entity).transform.isSome = true) →
        ∃ world', Engine.applyRemoteState roster positions world = some world' ∧
          Engine.applyRemoteState roster positions world' = some world') := by
  constructor
  · cases h : Engine.applyRemoteState roster positions world with
    | none => rfl
    | some world' => exact Engine.applyRemoteState_again roster positions world world' h
  · intro hroster
    obtain ⟨world', h⟩ :=
      (Engine.foldlM_applySlot_isSome roster positions (List.finRange 4) world).mpr
        (fun slot _ => hroster slot)
    exact ⟨world', h, Engine.applyRemoteState_again roster positions world world' h⟩

/-- C4 at the sample world: both runs of the loop go through and end in the same world. -/
theorem C4_remote_state_idempotent_witness :
    ∃ world', Engine.applyRemoteState [1, 2, 3, 4] samplePositions sampleWorld = some world' ∧
      Engine.applyRemoteState [1, 2, 3, 4] samplePositions world' = some world' :=
  (C4_remote_state_idempotent [1, 2, 3, 4] samplePositions sampleWorld).2 (by decide)

/-- C6: after the systems `systems` have been registered with `AddSystem`, one `Update`
executes every element of `m_Systems` once, in registration order, each on the same
snapshot and with the same `dt`: the world the system phase leaves is the world after
input capture with `Execute` of each registered system applied to it in registration
order, each with the snapshot of all entities and `dt`, and these are the calls recorded;
`Update` returns when the player has a controller and the components it reaches afterwards
are present; and an `Update` that returns has recorded exactly these calls and hands the
world so computed to its remote-state loop. -/
theorem C6_update_runs_systems_in_order {n : ℕ} (e₀ : Engine n) (systems : List (System n))
    (dt : F32) (poll : NetworkManager → NetworkManager) :
    (∀ e₁, (systems.foldl Engine.AddSystem e₀).captureInput = some e₁ →
      (e₁.executeSystems dt).world
          = (e₀.m_Systems ++ systems).foldl
              (fun (world : World n) (system : System n) =>
                system.Execute (GetEntities n) dt world) e₁.world ∧
        (e₁.executeSystems dt).executed
          = e₀.executed ++ (e₀.m_Systems ++ systems).map (fun s => ⟨s, GetEntities n, dt⟩) ∧
        ((e₁.executeSystems dt).componentsPresent →
          ∃ r, (systems.foldl Engine.AddSystem e₀).Update dt poll = some r)) ∧
    (∀ r, (systems.foldl Engine.AddSystem e₀).Update dt poll = some r →
      r.executed
          = e₀.executed ++ (e₀.m_Systems ++ systems).map (fun s => ⟨s, GetEntities n, dt⟩) ∧
        ∃ e₁ e₃, (systems.foldl Engine.AddSystem e₀).captureInput = some e₁ ∧
          (e₁.executeSystems dt).publish poll = some e₃ ∧
          Engine.applyRemoteState e₃.m_NetworkedEntities
              e₃.m_NetworkManager.m_NetworkedPositions
              ((e₀.m_Systems ++ systems).foldl
                (fun (world : World n) (system : System n) =>
                  system.Execute (GetEntities n) dt world) e₁.world)
            = some r.world) := by
  constructor
  · intro e₁ h1
    obtain ⟨hs, hx⟩ := Engine.captureInput_fields _ _ h1
    refine ⟨?_, ?_, Engine.Update_isSome _ e₁ dt poll h1⟩
    · rw [Engine.executeSystems_world, hs, Engine.foldl_AddSystem_m_Systems]
    · rw [Engine.executeSystems_executed, hs, hx, Engine.foldl_AddSystem_m_Systems,
        Engine.foldl_AddSystem_executed]
  · intro r h
    constructor
    · rw [Engine.Update_executed _ r dt poll h, Engine.foldl_AddSystem_m_Systems,
        Engine.foldl_AddSystem_executed]
    · obtain ⟨e₁, e₃, h1, h3, h5⟩ := Engine.Update_world _ r dt poll h
      obtain ⟨hs, _⟩ := Engine.captureInput_fields _ _ h1
      refine ⟨e₁, e₃, h1, h3, ?_⟩
      rw [← Engine.foldl_AddSystem_m_Systems, ← hs, ← Engine.executeSystems_world]
      exact h5

/-- C6 at the sample engine, the key `w` held down, with the movement system and then
the halting system registered: `Update` returns, has executed the two in this order on
the snapshot of all six entities with the same `dt`, and the player has moved from
`x = 10` to `10 + 7 * 0.016` in `float` arithmetic before its intent was cleared. -/
theorem C6_update_runs_systems_in_order_witness :
    ∃ r, ([playerMovementSystem 6, haltSystem 6].foldl Engine.AddSystem
          sampleEngine).Update 0.016 id = some r ∧
      r.executed = [⟨playerMovementSystem 6, GetEntities 6, 0.016⟩,
        ⟨haltSystem 6, GetEntities 6, 0.016⟩] ∧
      (r.world 0).transform.map (fun t => t.position.x.val) = some (10603201 / 1048576) ∧
      (r.world 0).playerController.map (fun c => c.moveForward) = some false := by
  obtain ⟨h1, h2⟩ := C6_update_runs_systems_in_order sampleEngine
    [playerMovementSystem 6, haltSystem 6] 0.016 id
  obtain ⟨r, hr⟩ := (h1 _ rfl).2.2 ⟨rfl, rfl, by decide⟩
  obtain ⟨hx, e₁, e₃, hc, hp, hw⟩ := h2 r hr
  have he₁ := Option.some.inj (hc.symm.trans (rfl : _ = some _))
  subst he₁
  have he₃ := Option.some.inj (hp.symm.trans (rfl : _ = some _))
  subst he₃
  have h0 := Engine.foldlM_applySlot_apply _ _ _ _ _ hw 0
  refine ⟨r, hr, hx, ?_, ?_⟩
  · rw [h0]; decide!
  · rw [h0]; decide!

/-- C9: `Resize(w, h)` returns the engine as it was, with no OpenGL call, when `w <= 0` or
`h <= 0`; otherwise the stored width is `w`, the stored height is `h`, the ratio is the
`float` quotient of `w` and `h`, and the one call issued is `glViewport(0, 0, w, h)`. -/
theorem C9_resize {n : ℕ} (e : Engine n) (w h : ℤ) :
    ((w ≤ 0 ∨ h ≤ 0) → e.Resize w h = e) ∧
    ((0 < w ∧ 0 < h) →
      (e.Resize w h).m_WindowWidth = w ∧ (e.Resize w h).m_WindowHeight = h ∧
        (e.Resize w h).m_WindowRatio = F32.ofInt w / F32.ofInt h ∧
        (e.Resize w h).glCalls = e.glCalls ++ [GLCall.glViewport 0 0 w h]) := by
  constructor
  · intro hle
    unfold Engine.Resize
    rw [if_pos hle]
  · intro hpos
    have hn : ¬ (w ≤ 0 ∨ h ≤ 0) := by omega
    unfold Engine.Resize
    rw [if_neg hn]
    exact ⟨rfl, rfl, rfl, rfl⟩

/-- C9 at the sample engine: a resize to 1024 by 0 changes nothing, and a resize to 1024
by 768 stores both, the ratio 11184811 / 2^23 (the `float` nearest 4/3) and the viewport. -/
theorem C9_resize_witness :
    sampleEngine.Resize 1024 0 = sampleEngine ∧
      (sampleEngine.Resize 1024 768).m_WindowWidth = 1024 ∧
      (sampleEngine.Resize 1024 768).m_WindowHeight = 768 ∧
      (sampleEngine.Resize 1024 768).m_WindowRatio.val = 11184811 / 8388608 ∧
      (sampleEngine.Resize 1024 768).glCalls = [GLCall.glViewport 0 0 1024 768] := by
  obtain ⟨h1, h2⟩ := C9_resize sampleEngine 1024 768
  obtain ⟨hw, hh, hr, hg⟩ := h2 (by decide)
  refine ⟨(C9_resize sampleEngine 1024 0).1 (by decide), hw, hh, ?_, hg⟩
  rw [hr]
  decide!

/-- C10 fails on the code: `Update` writes through the controller pointer of the player
(line 96), reads through its transform pointer (line 112) and writes through the
transform pointer of each roster entity (line 118) without a test, so a player with no
controller, a player with no transform, and a roster entity with no transform each make
it dereference null. -/
theorem C10_update_dereferences_null :
    bareEngine.Update 0.016 id = none ∧
      Engine.Update
        { sampleEngine with
          world := Function.update sampleWorld 0 { samplePlayer with transform := none } }
        0.016 id = none ∧
      Engine.Update
        { sampleEngine with
          world := Function.update sampleWorld 3 { sampleBullet with transform := none } }
        0.016 id = none := by
  refine ⟨rfl, rfl, rfl⟩

/-- C5: the model matrix of `Render` is the product translation times scale times
rotation, in this order: each row of the rotation block is multiplied by the scale of
that row and the last column is the position. For position `(1, 0, 0)`, scale
`(2, 1, 1)` and the identity orientation it is `Translate(1,0,0) * Scale(2,1,1) * Identity`
element by element, which the reverse order is not; and for scale `(2, 1, 1)` and
orientation `(0, 0, 1, 1)` it is not translation times rotation times scale. -/
theorem C5_model_matrix (t : TransformComponent) :
    Engine.modelMatrix t
        = glm.translate (Mat4.diag 1) t.position * glm.scale (Mat4.diag 1) t.scale
            * glm.mat4_cast t.orientation ∧
      Engine.modelMatrix t
        = ⟨⟨t.scale.x * (glm.mat4_cast t.orientation).c0.x,
            t.scale.y * (glm.mat4_cast t.orientation).c0.y,
            t.scale.z * (glm.mat4_cast t.orientation).c0.z, 0⟩,
           ⟨t.scale.x * (glm.mat4_cast t.orientation).c1.x,
            t.scale.y * (glm.mat4_cast t.orientation).c1.y,
            t.scale.z * (glm.mat4_cast t.orientation).c1.z, 0⟩,
           ⟨t.scale.x * (glm.mat4_cast t.orientation).c2.x,
            t.scale.y * (glm.mat4_cast t.orientation).c2.y,
            t.scale.z * (glm.mat4_cast t.orientation).c2.z, 0⟩,
           ⟨t.position.x, t.position.y, t.position.z, 1⟩⟩ ∧
      Engine.modelMatrix ⟨⟨1, 0, 0⟩, ⟨2, 1, 1⟩, ⟨0, 0, 0, 1⟩⟩
        = ⟨⟨2, 0, 0, 0⟩, ⟨0, 1, 0, 0⟩, ⟨0, 0, 1, 0⟩, ⟨1, 0, 0, 1⟩⟩ ∧
      Engine.modelMatrix ⟨⟨1, 0, 0⟩, ⟨2, 1, 1⟩, ⟨0, 0, 0, 1⟩⟩
        = glm.translate (Mat4.diag 1) ⟨1, 0, 0⟩ * glm.scale (Mat4.diag 1) ⟨2, 1, 1⟩
            * Mat4.diag 1 ∧
      Engine.modelMatrix ⟨⟨1, 0, 0⟩, ⟨2, 1, 1⟩, ⟨0, 0, 0, 1⟩⟩
        ≠ Mat4.diag 1 * glm.scale (Mat4.diag 1) ⟨2, 1, 1⟩
            * glm.translate (Mat4.diag 1) ⟨1, 0, 0⟩ ∧
      Engine.modelMatrix ⟨⟨0, 0, 0⟩, ⟨2, 1, 1⟩, ⟨0, 0, 1, 1⟩⟩
        ≠ glm.translate (Mat4.diag 1) ⟨0, 0, 0⟩ * glm.mat4_cast ⟨0, 0, 1, 1⟩
            * glm.scale (Mat4.diag 1) ⟨2, 1, 1⟩ := by
  refine ⟨rfl, ?_, ?_, ?_, ?_, ?_⟩
  · exact Engine.modelMatrix_of_affine t.position t.scale (glm.mat4_cast t.orientation)
      rfl rfl rfl rfl
  · decide!
  · decide!
  · decide!
  · decide!

/-- C7 as stated fails. The camera entity of the sample engine has no mesh, yet `Render`
reads the position of its transform for the view matrix, so its calls change when only
the camera is moved; the count passed to `glDrawElements` is a signed 32-bit value, so for
715827883 triangles it is -2147483647 and not 2147483649; and when the camera entity has
no transform the unchecked pointer of line 143 is dereferenced at line 144 and nothing is
drawn, although the player has both components. -/
theorem C7_render_counterexample :
    (sampleCamera.meshRenderer = none ∧
      (∃ calls, sampleEngine.Render sampleProjection sampleView = some calls ∧
        GLCall.glUniformMatrix4fv 1 (sampleView ⟨-20, 50, 0⟩) ∈ calls) ∧
      movedCameraEngine.Render sampleProjection sampleView
        ≠ sampleEngine.Render sampleProjection sampleView) ∧
    (sampleEngine.renderEntity hugeMeshEntity).getLast? = some (GLCall.glDrawElements (-2147483647)) ∧
    (blindEngine.Render sampleProjection sampleView = none ∧
      (blindEngine.world 0).meshRenderer.isSome = true ∧
      (blindEngine.world 0).transform.isSome = true) := by
  refine ⟨⟨rfl, ⟨_, rfl, ?_⟩, ?_⟩, ?_, rfl, rfl, rfl⟩
  · decide!
  · decide!
  · decide!

/-- C7, amended: when the camera entity has a transform, `Render` issues the clear, the
projection upload, the view upload computed from the position of the camera, then, in
snapshot order, for exactly the entities that have both a mesh renderer and a transform,
the four calls of a draw (model matrix, colour, buffer binding, indexed draw), and the
swap; the count of the indexed draw is `numTriangles * 3` as a signed 32-bit value, which
is `numTriangles * 3` when that is below 2^31; the loop issues nothing for an entity that
lacks either component, whatever its other components hold; the snapshot lists every
entity once. -/
theorem C7_render_draws {n : ℕ} (e : Engine n) (projection : ℤ → ℤ → Mat4)
    (view : Vec3 → Mat4) (cameraTransform : TransformComponent)
    (hcam : (e.world e.m_CameraEntity).transform = some cameraTransform) :
    e.Render projection view
        = some ([GLCall.glClear,
              GLCall.glUniformMatrix4fv e.m_ProjectionMatrixUL
                (projection e.m_WindowWidth e.m_WindowHeight),
              GLCall.glUniformMatrix4fv e.m_ViewMatrixUL (view cameraTransform.position)]
            ++ ((GetEntities n).filter
                (fun i => (e.world i).meshRenderer.isSome && (e.world i).transform.isSome)).flatMap
              (fun i => e.renderEntity (e.world i))
            ++ [GLCall.glutSwapBuffers]) ∧
      (∀ (entity : Entity) (renderer : MeshRendererComponent) (transform : TransformComponent),
        entity.meshRenderer = some renderer → entity.transform = some transform →
        e.renderEntity entity
            = [GLCall.glUniformMatrix4fv e.m_ModelMatrixUL (Engine.modelMatrix transform),
               GLCall.glUniform3fv e.m_ColorUL renderer.color,
               GLCall.glBindVertexArray renderer.vbo,
               GLCall.glDrawElements (toGLsizei (renderer.numTriangles * 3))] ∧
          (renderer.numTriangles * 3 < 2 ^ 31 →
            toGLsizei (renderer.numTriangles * 3) = ((renderer.numTriangles * 3 : ℕ) : ℤ))) ∧
      (∀ entity : Entity, (entity.meshRenderer = none ∨ entity.transform = none) →
        e.renderEntity entity = []) ∧
      ((GetEntities n).Nodup ∧ ∀ i, i ∈ GetEntities n) := by
  refine ⟨?_, ?_, Engine.renderEntity_of_lacking e, List.nodup_finRange n, List.mem_finRange⟩
  · rw [Engine.Render_of_camera e projection view cameraTransform hcam,
      Engine.renderEntities_eq_filter]
  · intro entity renderer transform hm ht
    exact ⟨Engine.renderEntity_of_both e entity renderer transform hm ht,
      Engine.toGLsizei_of_lt _⟩

/-- C7, amended, at the sample engine: `Render` returns 24 calls; the player and the four
bullets are drawn in this order, with 36 and four times 2280 indices, and the camera,
which has no mesh, gets no call of the loop. -/
theorem C7_render_draws_witness :
    ∃ calls, sampleEngine.Render sampleProjection sampleView = some calls ∧
      calls.length = 24 ∧
      calls.filterMap
          (fun call => match call with
            | GLCall.glDrawElements count => some count
            | _ => none)
        = [36, 2280, 2280, 2280, 2280] ∧
      sampleEngine.renderEntity sampleCamera = [] := by
  obtain ⟨h, _, hl, _⟩ := C7_render_draws sampleEngine sampleProjection sampleView
    ⟨⟨-20, 50, 0⟩, ⟨1, 1, 1⟩, ⟨0, 0, 0, 1⟩⟩ rfl
  refine ⟨_, h, ?_, ?_, hl sampleCamera (Or.inl rfl)⟩
  · decide!
  · decide!

end gdp
